import Mathlib

/-!
Verification of the smtp_to_telegram message-formatting, truncation,
attachment-classification and dispatch core (smtp_to_telegram.go).

Strings are embedded as `List Char` (Go strings viewed as rune sequences;
Go's rune-based length and slicing coincide with list length and take).
Byte lengths (Go `len` on a string, used for the attachment-size check)
are computed through an explicit UTF-8 encoder.
-/

namespace SmtpToTelegram

/-- Whitespace predicate of Go's `unicode.IsSpace` restricted to Latin-1
(`'\t' '\n' '\v' '\f' '\r' ' ' U+0085 U+00A0`); the higher Unicode
space classes do not occur in any input considered here. -/
def isSpaceChar (c : Char) : Bool :=
  c == ' ' || c == '\t' || c == '\n' || c == '\x0b' || c == '\x0c' ||
    c == '\r' || c == '\u0085' || c == '\u00A0'

/-- Go `strings.TrimSpace`: drop leading and trailing whitespace. -/
def goTrimSpace (s : List Char) : List Char :=
  ((s.dropWhile isSpaceChar).reverse.dropWhile isSpaceChar).reverse

/-- The constant `BodyTruncated = "\n\n[truncated]"`. -/
def BodyTruncated : List Char := "\n\n[truncated]".toList

/-- The marker text proper, without its leading blank line. -/
def markerCore : List Char := "[truncated]".toList

/-- Template token `{from}`. -/
def tokFrom : List Char := "{from}".toList

/-- Template token `{to}`. -/
def tokTo : List Char := "{to}".toList

/-- Template token `{subject}`. -/
def tokSubject : List Char := "{subject}".toList

/-- Template token `{body}`. -/
def tokBody : List Char := "{body}".toList

/-- Template token `{attachments_details}`. -/
def tokDetails : List Char := "{attachments_details}".toList

/-- The literal two-character escape for a newline. -/
def escNL : List Char := "\\n".toList

/-- The replacement pairs handed to `strings.NewReplacer` in
`FormatMessage`, in argument order; only the `{body}` replacement
differs between the three render calls. -/
def replacerPairs (f t s d b : List Char) : List (List Char × List Char) :=
  [(escNL, "\n".toList), (tokFrom, f), (tokTo, t), (tokSubject, s),
   (tokBody, b), (tokDetails, d)]

/-- First pair whose (non-empty) pattern is a prefix of `s`, in argument
order: Go's `Replacer` match rule at one position. -/
def findMatch (pairs : List (List Char × List Char)) (s : List Char) :
    Option (List Char × List Char) :=
  pairs.find? fun pr => !pr.1.isEmpty && pr.1.isPrefixOf s

/-- Go `strings.Replacer.Replace`: one left-to-right pass; at each
position the first matching pattern is replaced and the scan resumes
after it; replacement text is never rescanned.  (All patterns passed in
this program are non-empty, so advancing by `pat.length` is written as
`1 + (pat.length - 1)` to make termination structural.) -/
def goReplace (pairs : List (List Char × List Char)) : List Char → List Char
  | [] => []
  | c :: rest =>
    match findMatch pairs (c :: rest) with
    | some (pat, rep) => rep ++ goReplace pairs (rest.drop (pat.length - 1))
    | none => c :: goReplace pairs rest
termination_by s => s.length
decreasing_by
  · simp only [List.length_cons, List.length_drop]; omega
  · simp only [List.length_cons]; omega

/-- The configuration fields of `TelegramConfig` that the formatting,
truncation and dispatch core reads. -/
structure TelegramConfig where
  telegramChatIds : List Char
  telegramBotToken : List Char
  messageTemplate : List Char
  forwardedAttachmentMaxSize : Int
  forwardedAttachmentMaxPhotoSize : Int
  forwardedAttachmentRespectErrors : Bool
  messageLengthToSendAsFile : Nat

/-- One render of the message template: the `strings.NewReplacer(...)
.Replace(template)` call of `FormatMessage` followed by
`strings.TrimSpace`, with `b` the string substituted for `{body}`. -/
def renderTemplate (tpl f t s d b : List Char) : List Char :=
  goTrimSpace (goReplace (replacerPairs f t s d b) tpl)

/-- Result of `FormatMessage`.  The Go function returns the pair
(full text, truncated text — empty when no truncation is needed) and
panics in two situations: the rune slice `[:maxBodyLength]` being out of
bounds (a Go runtime panic) and the explicit invariant panic when the
re-rendered truncated message is still longer than the threshold. -/
inductive FormatOutcome where
  | noTruncate (full : List Char)
  | hardCut (full cut : List Char)
  | truncated (full trunc : List Char)
  | sliceOOB (full : List Char)
  | panicLength (full trunc : List Char)
deriving DecidableEq

/-- `FormatMessage` (smtp_to_telegram.go): renders the full message,
decides whether it fits `messageLengthToSendAsFile`, and otherwise
produces the hard-cut or properly truncated variant. -/
def FormatMessage (from_ to_ subject text details : List Char)
    (cfg : TelegramConfig) : FormatOutcome :=
  let fullMessageText :=
    renderTemplate cfg.messageTemplate from_ to_ subject details (goTrimSpace text)
  if fullMessageText.length ≤ cfg.messageLengthToSendAsFile then
    .noTruncate fullMessageText
  else
    let emptyMessageText :=
      renderTemplate cfg.messageTemplate from_ to_ subject details
        (goTrimSpace ('.' :: BodyTruncated))
    if emptyMessageText.length ≥ cfg.messageLengthToSendAsFile then
      .hardCut fullMessageText (fullMessageText.take cfg.messageLengthToSendAsFile)
    else
      let maxBodyLength := cfg.messageLengthToSendAsFile - emptyMessageText.length
      if (goTrimSpace text).length < maxBodyLength then
        .sliceOOB fullMessageText
      else
        let truncatedMessageText :=
          renderTemplate cfg.messageTemplate from_ to_ subject details
            (goTrimSpace ((goTrimSpace text).take maxBodyLength ++ BodyTruncated))
        if truncatedMessageText.length > cfg.messageLengthToSendAsFile then
          .panicLength fullMessageText truncatedMessageText
        else
          .truncated fullMessageText truncatedMessageText

/-- The pair actually returned by the Go function; `none` models a panic
(the process halts, no value is returned). -/
def FormatMessagePair (o : FormatOutcome) : Option (List Char × List Char) :=
  match o with
  | .noTruncate full => some (full, [])
  | .hardCut full cut => some (full, cut)
  | .truncated full trunc => some (full, trunc)
  | .sliceOOB _ => none
  | .panicLength _ _ => none

/-- UTF-8 encoding of one character (Go strings are UTF-8 byte
sequences; `len` on a Go string counts these bytes). -/
def encodeChar (c : Char) : List Nat :=
  let n := c.toNat
  if n < 0x80 then [n]
  else if n < 0x800 then [0xC0 + n / 0x40, 0x80 + n % 0x40]
  else if n < 0x10000 then
    [0xE0 + n / 0x1000, 0x80 + n / 0x40 % 0x40, 0x80 + n % 0x40]
  else
    [0xF0 + n / 0x40000, 0x80 + n / 0x1000 % 0x40, 0x80 + n / 0x40 % 0x40,
     0x80 + n % 0x40]

/-- The byte sequence of a Go string (`[]byte(s)`). -/
def encodeStr (s : List Char) : List Nat := s.flatMap encodeChar

/-- Go `len(s)` for a string `s`: its UTF-8 byte count. -/
def goByteLen (s : List Char) : Nat := (encodeStr s).length

/-- The two attachment kinds (`ATTACHMENT_TYPE_DOCUMENT`,
`ATTACHMENT_TYPE_PHOTO`). -/
inductive AttachmentFileType where
  | document
  | photo
deriving DecidableEq

/-- `FormattedAttachment`: file name, caption, payload bytes, kind. -/
structure FormattedAttachment where
  filename : List Char
  caption : List Char
  content : List Nat
  fileType : AttachmentFileType
deriving DecidableEq

/-- `FormattedEmail`: the notification text plus its attachments. -/
structure FormattedEmail where
  text : List Char
  attachments : List FormattedAttachment
deriving DecidableEq

/-- The fallback attachment built by `FormatEmail` when the message is
truncated: `full_message.txt`, caption `Full message`, holding the bytes
of the untouched full text. -/
def fullMessageAttachment (fullMessageText : List Char) : FormattedAttachment :=
  { filename := "full_message.txt".toList, caption := "Full message".toList,
    content := encodeStr fullMessageText, fileType := .document }

/-- The error returned by `FormatEmail` when the full text is too large
to be forwarded as the fallback document. -/
structure SizeExceededError where
  messageLength : Nat
  maxSize : Int
deriving DecidableEq

/-- Tail of `FormatEmail` (smtp_to_telegram.go, after the
`FormatMessage` call): when the truncated text is empty the full text is
returned with the collected attachments; otherwise the full text must
fit `forwardedAttachmentMaxSize` (in bytes) and is prepended as the
fallback document. -/
def formatEmailFinish (fullMessageText truncatedMessageText : List Char)
    (attachments : List FormattedAttachment) (cfg : TelegramConfig) :
    Except SizeExceededError FormattedEmail :=
  if truncatedMessageText = [] then
    .ok { text := fullMessageText, attachments := attachments }
  else if (goByteLen fullMessageText : Int) > cfg.forwardedAttachmentMaxSize then
    .error { messageLength := goByteLen fullMessageText,
             maxSize := cfg.forwardedAttachmentMaxSize }
  else
    .ok { text := truncatedMessageText,
          attachments := fullMessageAttachment fullMessageText :: attachments }

/-- `FormatMessage` followed by the tail of `FormatEmail`; `none` models
the process panicking inside `FormatMessage`. -/
def FormatEmailPipeline (from_ to_ subject text details : List Char)
    (attachments : List FormattedAttachment) (cfg : TelegramConfig) :
    Option (Except SizeExceededError FormattedEmail) :=
  (FormatMessagePair (FormatMessage from_ to_ subject text details cfg)).map
    fun p => formatEmailFinish p.1 p.2 attachments cfg

/-- `FileIsImage`: the fixed allow-list of photo-class content types
(GIF and bitmap are deliberately commented out in the source). -/
def FileIsImage (contentType : List Char) : Bool :=
  contentType = "image/jpeg".toList || contentType = "image/png".toList

/-- Decision taken for one MIME part in `FormatEmail`'s `doParts`. -/
inductive PartDecision where
  | photo
  | document
  | discard
deriving DecidableEq

/-- The classification branch of `doParts` in `FormatEmail`: an
image-class part small enough for the photo ceiling is sent as a photo;
otherwise a part small enough for the document ceiling is sent as a
document; everything else is discarded.  `contentType` is the resolved
type (`GuessContentType(part.ContentType, part.FileName)`), and
`contentLen` is `len(part.Content)` in bytes. -/
def classifyPart (contentType : List Char) (contentLen : Nat)
    (cfg : TelegramConfig) : PartDecision :=
  if FileIsImage contentType ∧
      (contentLen : Int) ≤ cfg.forwardedAttachmentMaxPhotoSize then
    .photo
  else if (contentLen : Int) ≤ cfg.forwardedAttachmentMaxSize then
    .document
  else
    .discard

/-- A parsed SMTP address (guerrilla `mail.Address`); `String()` renders
it as `user@host`. -/
structure EmailAddress where
  user : List Char
  host : List Char

/-- `mail.Address.String()` for a plain address. -/
def addressString (a : EmailAddress) : List Char := a.user ++ '@' :: a.host

/-- `JoinEmailAddresses`: the comma-space-joined recipient list. -/
def JoinEmailAddresses (a : List EmailAddress) : List Char :=
  (List.intersperse ", ".toList (a.map addressString)).flatten

/-- Go `strings.Replace(s, old, new, -1)` for a non-empty `old`:
replace every non-overlapping occurrence, scanning left to right. -/
def goReplaceAll (pat rep : List Char) : List Char → List Char
  | [] => []
  | c :: rest =>
    if pat.isPrefixOf (c :: rest) ∧ pat ≠ [] then
      rep ++ goReplaceAll pat rep (rest.drop (pat.length - 1))
    else
      c :: goReplaceAll pat rep rest
termination_by s => s.length
decreasing_by
  · simp only [List.length_cons, List.length_drop]; omega
  · simp only [List.length_cons]; omega

/-- `EscapeMultiLine`: escape carriage returns, then newlines. -/
def EscapeMultiLine (b : List Char) : List Char :=
  goReplaceAll ['\n'] "\\n".toList (goReplaceAll ['\r'] "\\r".toList b)

/-- `SanitizeBotToken`: replace every occurrence of the bot token by
`***`. -/
def SanitizeBotToken (s botToken : List Char) : List Char :=
  goReplaceAll botToken "***".toList s

/-- Decimal rendering of a natural number (`fmt.Sprintf("%d", n)`). -/
def natDecimal (n : Nat) : List Char :=
  if h : n < 10 then [Char.ofNat (48 + n)]
  else natDecimal (n / 10) ++ [Char.ofNat (48 + n % 10)]
termination_by n
decreasing_by omega

/-- The error text built by `SendMessageToChat` and
`SendAttachmentToChat` for a non-200 response: the response body is
escaped. -/
def non200Error (statusCode : Nat) (body : List Char) : List Char :=
  "Non-200 response from Telegram: (".toList ++ natDecimal statusCode ++
    ") ".toList ++ EscapeMultiLine body

/-- The error text built by `SendMessageToChat` when the platform
answers 200 but `ok != true`: the raw JSON body is embedded unescaped. -/
def okNotTrueError (jsonBody : List Char) : List Char :=
  "ok != true: ".toList ++ jsonBody

/-- `TelegramAPIMessage`: the delivery receipt (`message_id`). -/
structure TelegramAPIMessage where
  messageId : Nat
deriving DecidableEq

/-- The outward behaviour of the Remote Delivery Client
(`SendMessageToChat` / `SendAttachmentToChat`), as functions of the chat
id, text and attachment: `sendText` yields a receipt or an error string,
`sendAtt` yields `none` on success or `some err`. -/
structure DeliveryOracle where
  sendText : List Char → List Char → Except (List Char) TelegramAPIMessage
  sendAtt : FormattedAttachment → List Char → TelegramAPIMessage →
    Option (List Char)

/-- One network call performed by `SendEmailToTelegram`, for tracing
which destinations and attachments were attempted. -/
inductive SendAction where
  | text (chatId : List Char)
  | att (chatId : List Char) (a : FormattedAttachment)
deriving DecidableEq

/-- Parsing of one configured destination entry: an entry containing a
colon is split into (sender filter, chat id); otherwise the filter is
empty and the entry is the chat id. -/
def parseDest (d : List Char) : List Char × List Char :=
  if d.contains ':' then
    ((List.splitOn ':' d).getD 0 [], (List.splitOn ':' d).getD 1 [])
  else
    ([], d)

/-- The attachment loop of `SendEmailToTelegram` for one chat: send each
attachment in order; on failure the sanitized error aborts the loop when
`forwardedAttachmentRespectErrors` is set and is merely logged
otherwise.  Returns the error (if any) and the trace of attempts. -/
def sendAttachmentsLoop (o : DeliveryOracle) (cfg : TelegramConfig)
    (chatId : List Char) (sentMessage : TelegramAPIMessage) :
    List FormattedAttachment → Option (List Char) × List SendAction
  | [] => (none, [])
  | a :: rest =>
    match o.sendAtt a chatId sentMessage with
    | some e =>
      let e' := SanitizeBotToken e cfg.telegramBotToken
      if cfg.forwardedAttachmentRespectErrors then
        (some e', [SendAction.att chatId a])
      else
        let r := sendAttachmentsLoop o cfg chatId sentMessage rest
        (r.1, SendAction.att chatId a :: r.2)
    | none =>
      let r := sendAttachmentsLoop o cfg chatId sentMessage rest
      (r.1, SendAction.att chatId a :: r.2)

/-- The destination loop of `SendEmailToTelegram`: for each entry, parse
the optional sender filter; skip the destination when the envelope
sender does not contain the filter; otherwise send the text (aborting
the whole dispatch on failure with a sanitized error) and then the
attachments.  Returns the overall result and the trace of attempts. -/
def sendEmailLoop (o : DeliveryOracle) (cfg : TelegramConfig)
    (sender : List Char) (message : FormattedEmail) :
    List (List Char) → Except (List Char) Unit × List SendAction
  | [] => (.ok (), [])
  | d :: rest =>
    let fromMail := (parseDest d).1
    let chatId := (parseDest d).2
    if fromMail <:+: sender then
      match o.sendText chatId message.text with
      | .error e =>
        (.error (SanitizeBotToken e cfg.telegramBotToken), [SendAction.text chatId])
      | .ok sentMessage =>
        let r := sendAttachmentsLoop o cfg chatId sentMessage message.attachments
        match r.1 with
        | some e' => (.error e', SendAction.text chatId :: r.2)
        | none =>
          let rr := sendEmailLoop o cfg sender message rest
          (rr.1, SendAction.text chatId :: r.2 ++ rr.2)
    else
      sendEmailLoop o cfg sender message rest

/-- `SendEmailToTelegram` (delivery part): split the configured chat-id
list on commas and run the destination loop. -/
def SendEmailToTelegram (o : DeliveryOracle) (cfg : TelegramConfig)
    (sender : List Char) (message : FormattedEmail) :
    Except (List Char) Unit × List SendAction :=
  sendEmailLoop o cfg sender message (List.splitOn ',' cfg.telegramChatIds)

/-- The default value of the `message-template` option. -/
def defaultMessageTemplate : List Char :=
  "From: {from}\\nTo: {to}\\nSubject: {subject}\\n\\n{body}\\n\\n{attachments_details}".toList

/-- A piece of the template as consumed by the replacer's single
left-to-right scan: either text that does not depend on the `{body}`
replacement, or one `{body}` substitution site. -/
inductive Piece where
  | raw (s : List Char)
  | body
deriving DecidableEq

/-- The scan of the template performed by the replacer, with every
token other than `{body}` resolved (the match selection depends only on
the patterns, never on the replacement strings). -/
def scanPieces (f t s d : List Char) : List Char → List Piece
  | [] => []
  | c :: rest =>
    match findMatch (replacerPairs f t s d tokBody) (c :: rest) with
    | some (pat, rep) =>
      (if pat = tokBody then Piece.body else Piece.raw rep) ::
        scanPieces f t s d (rest.drop (pat.length - 1))
    | none => Piece.raw [c] :: scanPieces f t s d rest
termination_by s => s.length
decreasing_by
  · simp only [List.length_cons, List.length_drop]; omega
  · simp only [List.length_cons]; omega

/-- Reassembling the scanned pieces with a given `{body}` replacement. -/
def renderPieces (b : List Char) (ps : List Piece) : List Char :=
  (ps.map fun p => match p with | .raw s => s | .body => b).flatten

/-- How many times the scan substitutes `{body}`. -/
def countBodyPieces (ps : List Piece) : Nat :=
  ps.countP fun p => decide (p = Piece.body)

/-- A 200-status response body that `json.Unmarshal` accepts into
`TelegramAPIMessageResult` with `Ok = false` and that ends in a raw
newline: the thirteen bytes of `{"ok":false}` followed by `\n` (the
double quote written as its code point to keep the embedding plain). -/
def okFalseJsonBody : List Char :=
  '{' :: Char.ofNat 34 :: 'o' :: 'k' :: Char.ofNat 34 :: ':' ::
    'f' :: 'a' :: 'l' :: 's' :: 'e' :: '}' :: ['\n']

/-- The replacement string `***` used by `SanitizeBotToken`. -/
def starRep : List Char := "***".toList

/-- Decidable equality for dispatch results, so that concrete runs can
be evaluated inside proofs. -/
instance exceptDecEq {e a : Type} [DecidableEq e] [DecidableEq a] :
    DecidableEq (Except e a) := fun x y =>
  match x, y with
  | .error e1, .error e2 => decidable_of_iff (e1 = e2) (by simp)
  | .ok v1, .ok v2 => decidable_of_iff (v1 = v2) (by simp)
  | .error _, .ok _ => isFalse (by simp)
  | .ok _, .error _ => isFalse (by simp)

/-- A destination is *matching* when its parsed sender filter occurs in
the envelope sender. -/
def destMatches (sender d : List Char) : Prop := (parseDest d).1 <:+: sender

instance (sender d : List Char) : Decidable (destMatches sender d) := by
  unfold destMatches; infer_instance

/-- A matching destination is *faulty* when its primary text send fails,
or attachment errors are respected and some attachment send to it
fails. -/
def destFaulty (o : DeliveryOracle) (cfg : TelegramConfig)
    (message : FormattedEmail) (d : List Char) : Prop :=
  match o.sendText (parseDest d).2 message.text with
  | .error _ => True
  | .ok rc =>
    cfg.forwardedAttachmentRespectErrors = true ∧
      ∃ a ∈ message.attachments,
        (o.sendAtt a (parseDest d).2 rc).isSome = true

/-! ## Theorems -/

set_option maxRecDepth 4000 in
unseal goReplace in
/-- C10: template rendering is a single non-recursive pass of
exact-token replacement with `{to}` the comma-space-joined recipient
list and the result whitespace-trimmed.  First conjunct: the recipient
list joining; second: the spec's scenario (sender `from@test`, recipient
`to@test`, empty subject, body `hi`); third: a substituted value is not
rescanned (a `{from}` replacement equal to the literal `{body}` token
survives unreplaced), witnessing the single-pass, non-recursive rule. -/
theorem c10_template_rendering :
    JoinEmailAddresses [⟨"to".toList, "test".toList⟩] = "to@test".toList ∧
    renderTemplate "From: {from}\\nTo: {to}\\nSubject: {subject}\\n\\n{body}".toList
        "from@test".toList "to@test".toList [] [] (goTrimSpace "hi".toList) =
      "From: from@test\nTo: to@test\nSubject: \n\nhi".toList ∧
    renderTemplate tokFrom tokBody [] [] [] [] = tokBody := by
  refine ⟨by decide, by decide, by decide⟩

/-- C4: when the rendered full text is at most the send-as-file
threshold (counted in characters), the pipeline returns it unchanged,
keeps the collected attachments unmodified, and attaches no fallback
document. -/
theorem c4_short_message_unchanged (from_ to_ subject text details : List Char)
    (atts : List FormattedAttachment) (cfg : TelegramConfig)
    (h : (renderTemplate cfg.messageTemplate from_ to_ subject details
        (goTrimSpace text)).length ≤ cfg.messageLengthToSendAsFile) :
    FormatEmailPipeline from_ to_ subject text details atts cfg =
      some (.ok { text := renderTemplate cfg.messageTemplate from_ to_ subject details
                    (goTrimSpace text),
                  attachments := atts }) := by
  simp [FormatEmailPipeline, FormatMessage, if_pos h, FormatMessagePair,
    formatEmailFinish]

set_option maxRecDepth 4000 in
unseal goReplace in
/-- Witness for C4 at a concrete input: the `hi` message of the
`TestSuccess` scenario under the default configuration. -/
theorem c4_short_message_unchanged_witness :
    (renderTemplate defaultMessageTemplate "from@test".toList "to@test".toList
        [] [] (goTrimSpace "hi".toList)).length ≤ 4095 ∧
    FormatEmailPipeline "from@test".toList "to@test".toList [] "hi".toList [] []
        { telegramChatIds := "42,142".toList, telegramBotToken := "42:ZZZ".toList,
          messageTemplate := defaultMessageTemplate,
          forwardedAttachmentMaxSize := 10000000,
          forwardedAttachmentMaxPhotoSize := 10000000,
          forwardedAttachmentRespectErrors := false,
          messageLengthToSendAsFile := 4095 } =
      some (.ok { text := renderTemplate defaultMessageTemplate "from@test".toList
                    "to@test".toList [] [] (goTrimSpace "hi".toList),
                  attachments := [] }) :=
  ⟨by decide,
   c4_short_message_unchanged "from@test".toList "to@test".toList [] "hi".toList []
     [] _ (by decide)⟩

/-- C6 counterexample: the claim says a photo ceiling of zero routes
every part to discard for that path, but a zero-byte `image/png` part
still satisfies `len(content) ≤ 0` and is classified as a photo. -/
theorem c6_cx_zero_size_part :
    classifyPart "image/png".toList 0
        { telegramChatIds := [], telegramBotToken := [],
          messageTemplate := [], forwardedAttachmentMaxSize := 0,
          forwardedAttachmentMaxPhotoSize := 0,
          forwardedAttachmentRespectErrors := false,
          messageLengthToSendAsFile := 4095 } = .photo ∧
    PartDecision.photo ≠ PartDecision.discard := by
  refine ⟨by decide, by decide⟩

/-- C6 (amended): the ordered decision rule is as claimed — image-class
(exactly `image/jpeg` or `image/png`; GIF and bitmap excluded) within
the photo ceiling is a photo, else within the document ceiling a
document, else discarded — and a ceiling of zero disables that
forwarding path for every part with non-empty content (a zero-byte part
still passes the `≤ 0` comparison). -/
theorem c6_classification_rule (contentType : List Char) (contentLen : Nat)
    (cfg : TelegramConfig) :
    (FileIsImage contentType = true ↔
      contentType = "image/jpeg".toList ∨ contentType = "image/png".toList) ∧
    FileIsImage "image/gif".toList = false ∧
    FileIsImage "image/x-ms-bmp".toList = false ∧
    (FileIsImage contentType = true →
      (contentLen : Int) ≤ cfg.forwardedAttachmentMaxPhotoSize →
      classifyPart contentType contentLen cfg = .photo) ∧
    (¬(FileIsImage contentType = true ∧
        (contentLen : Int) ≤ cfg.forwardedAttachmentMaxPhotoSize) →
      (contentLen : Int) ≤ cfg.forwardedAttachmentMaxSize →
      classifyPart contentType contentLen cfg = .document) ∧
    (¬(FileIsImage contentType = true ∧
        (contentLen : Int) ≤ cfg.forwardedAttachmentMaxPhotoSize) →
      (contentLen : Int) > cfg.forwardedAttachmentMaxSize →
      classifyPart contentType contentLen cfg = .discard) ∧
    (cfg.forwardedAttachmentMaxPhotoSize = 0 → 0 < contentLen →
      classifyPart contentType contentLen cfg ≠ .photo) ∧
    (cfg.forwardedAttachmentMaxSize = 0 → 0 < contentLen →
      classifyPart contentType contentLen cfg ≠ .document) := by
  refine ⟨by simp [FileIsImage], by decide, by decide, ?_, ?_, ?_, ?_, ?_⟩ <;>
    · intro h1 h2
      simp only [classifyPart]
      split_ifs <;> simp_all <;> omega

/-- Witness for C6 at a concrete input: a 3-byte `image/jpeg` part with
both ceilings at 1024 is forwarded as a photo (the
`TestAttachmentsSending` scenario). -/
theorem c6_classification_rule_witness :
    classifyPart "image/jpeg".toList 3
        { telegramChatIds := [], telegramBotToken := [],
          messageTemplate := [], forwardedAttachmentMaxSize := 1024,
          forwardedAttachmentMaxPhotoSize := 1024,
          forwardedAttachmentRespectErrors := false,
          messageLengthToSendAsFile := 4095 } = .photo :=
  (c6_classification_rule "image/jpeg".toList 3 _).2.2.2.1 (by decide) (by decide)

/-- C5: whenever `FormatMessage` decided to truncate (it returned a
non-empty truncated text), `FormatEmail` fails with the size-exceeded
error iff the full text's byte length exceeds
`forwardedAttachmentMaxSize`; otherwise the `full_message.txt` document
with caption `Full message` holding the untouched full text is
prepended, the collected attachments keeping their order after it. -/
theorem c5_fallback_document (o : FormatOutcome) (full tr : List Char)
    (atts : List FormattedAttachment) (cfg : TelegramConfig)
    (_hp : FormatMessagePair o = some (full, tr)) (hne : tr ≠ []) :
    ((∃ e, formatEmailFinish full tr atts cfg = .error e) ↔
      (goByteLen full : Int) > cfg.forwardedAttachmentMaxSize) ∧
    (∀ fe, formatEmailFinish full tr atts cfg = .ok fe →
      fe.text = tr ∧
      fe.attachments =
        { filename := "full_message.txt".toList, caption := "Full message".toList,
          content := encodeStr full, fileType := .document } :: atts) := by
  constructor
  · constructor
    · rintro ⟨e, he⟩
      by_contra hgt
      simp [formatEmailFinish, hne, hgt] at he
    · intro hgt
      refine ⟨{ messageLength := goByteLen full,
                maxSize := cfg.forwardedAttachmentMaxSize }, ?_⟩
      simp [formatEmailFinish, hne, hgt]
  · intro fe hfe
    simp only [formatEmailFinish, if_neg hne] at hfe
    split_ifs at hfe with hgt
    all_goals cases hfe
    all_goals exact ⟨rfl, by simp [fullMessageAttachment]⟩

set_option maxRecDepth 4000 in
unseal goReplace in
/-- Witness for C5 at a concrete input: template `{body}`, a 30
character body, threshold 20 — truncation triggers, the full text is 30
bytes which fits the 1024-byte ceiling, so the fallback document is
prepended. -/
theorem c5_fallback_document_witness :
    FormatMessagePair
        (FormatMessage [] [] [] (List.replicate 30 'a') []
          { telegramChatIds := [], telegramBotToken := [],
            messageTemplate := tokBody, forwardedAttachmentMaxSize := 1024,
            forwardedAttachmentMaxPhotoSize := 1024,
            forwardedAttachmentRespectErrors := false,
            messageLengthToSendAsFile := 20 }) =
      some (List.replicate 30 'a',
        List.replicate 6 'a' ++ BodyTruncated) ∧
    (∀ fe,
      formatEmailFinish (List.replicate 30 'a')
          (List.replicate 6 'a' ++ BodyTruncated) []
          { telegramChatIds := [], telegramBotToken := [],
            messageTemplate := tokBody, forwardedAttachmentMaxSize := 1024,
            forwardedAttachmentMaxPhotoSize := 1024,
            forwardedAttachmentRespectErrors := false,
            messageLengthToSendAsFile := 20 } = .ok fe →
      fe.text = List.replicate 6 'a' ++ BodyTruncated ∧
      fe.attachments =
        [{ filename := "full_message.txt".toList, caption := "Full message".toList,
           content := encodeStr (List.replicate 30 'a'), fileType := .document }]) :=
  ⟨by decide,
   (c5_fallback_document
     (FormatMessage [] [] [] (List.replicate 30 'a') []
       { telegramChatIds := [], telegramBotToken := [],
         messageTemplate := tokBody, forwardedAttachmentMaxSize := 1024,
         forwardedAttachmentMaxPhotoSize := 1024,
         forwardedAttachmentRespectErrors := false,
         messageLengthToSendAsFile := 20 })
     (List.replicate 30 'a') (List.replicate 6 'a' ++ BodyTruncated) [] _
     (by decide) (by decide)).2⟩

/-- C7 counterexample: the claim says a filtered destination is skipped
whenever the sender does not match under exact-or-prefix matching, but
the code uses substring matching (`strings.Contains`): with destination
`b@x:111` and sender `ab@x` — neither equal to nor prefixed by `b@x` —
the text send to chat `111` is still attempted. -/
theorem c7_cx_substring_matching :
    (SendEmailToTelegram
        { sendText := fun _ _ => .ok { messageId := 1 },
          sendAtt := fun _ _ _ => none }
        { telegramChatIds := "b@x:111".toList, telegramBotToken := "tok".toList,
          messageTemplate := [], forwardedAttachmentMaxSize := 0,
          forwardedAttachmentMaxPhotoSize := 0,
          forwardedAttachmentRespectErrors := false,
          messageLengthToSendAsFile := 4095 }
        "ab@x".toList { text := "t".toList, attachments := [] }).2 =
      [SendAction.text "111".toList] ∧
    ¬("b@x".toList <+: "ab@x".toList) ∧ "b@x".toList ≠ "ab@x".toList := by
  refine ⟨by decide, by decide, by decide⟩

/-- C7 (amended): a destination with a sender filter is skipped — no
send attempted, no error — whenever the filter is not a substring of the
envelope sender (the code matches by `strings.Contains`, not
exact-or-prefix); a bare chat-id destination (no colon, hence an empty
filter) has its notification text sent for every sender. -/
theorem c7_sender_filter (o : DeliveryOracle) (cfg : TelegramConfig)
    (sender : List Char) (message : FormattedEmail) (d : List Char)
    (rest : List (List Char)) :
    (¬((parseDest d).1 <:+: sender) →
      sendEmailLoop o cfg sender message (d :: rest) =
        sendEmailLoop o cfg sender message rest) ∧
    (d.contains ':' = false →
      SendAction.text d ∈ (sendEmailLoop o cfg sender message (d :: rest)).2) := by
  constructor
  · intro h
    simp [sendEmailLoop, if_neg h]
  · intro h
    have hp : parseDest d = ([], d) := by
      simp only [parseDest, h]
      simp
    simp only [sendEmailLoop, hp]
    rw [if_pos (show ([] : List Char) <:+: sender from List.nil_infix)]
    rcases hst : o.sendText d message.text with e | r
    · simp
    · rcases hal : (sendAttachmentsLoop o cfg d r message.attachments).1 with _ | e'
      · simp [hal]
      · simp [hal]

/-- Witness for C7 at the spec's own scenario: destinations `a@x:111`
and `222`, sender `b@x` — chat `111` is skipped (its filter `a@x` is not
a substring of `b@x`) and the bare chat id `222` is sent the text. -/
theorem c7_sender_filter_witness :
    (¬((parseDest "a@x:111".toList).1 <:+: "b@x".toList) ∧
      sendEmailLoop
          { sendText := fun _ _ => .ok { messageId := 1 },
            sendAtt := fun _ _ _ => none }
          { telegramChatIds := "a@x:111,222".toList, telegramBotToken := [],
            messageTemplate := [], forwardedAttachmentMaxSize := 0,
            forwardedAttachmentMaxPhotoSize := 0,
            forwardedAttachmentRespectErrors := false,
            messageLengthToSendAsFile := 4095 }
          "b@x".toList { text := "t".toList, attachments := [] }
          ["a@x:111".toList, "222".toList] =
        sendEmailLoop
          { sendText := fun _ _ => .ok { messageId := 1 },
            sendAtt := fun _ _ _ => none }
          { telegramChatIds := "a@x:111,222".toList, telegramBotToken := [],
            messageTemplate := [], forwardedAttachmentMaxSize := 0,
            forwardedAttachmentMaxPhotoSize := 0,
            forwardedAttachmentRespectErrors := false,
            messageLengthToSendAsFile := 4095 }
          "b@x".toList { text := "t".toList, attachments := [] }
          ["222".toList]) ∧
    ("222".toList.contains ':' = false ∧
      SendAction.text "222".toList ∈
        (sendEmailLoop
          { sendText := fun _ _ => .ok { messageId := 1 },
            sendAtt := fun _ _ _ => none }
          { telegramChatIds := "a@x:111,222".toList, telegramBotToken := [],
            messageTemplate := [], forwardedAttachmentMaxSize := 0,
            forwardedAttachmentMaxPhotoSize := 0,
            forwardedAttachmentRespectErrors := false,
            messageLengthToSendAsFile := 4095 }
          "b@x".toList { text := "t".toList, attachments := [] }
          ["222".toList, "a@x:111".toList]).2) :=
  ⟨⟨by decide, (c7_sender_filter _ _ _ _ _ _).1 (by decide)⟩,
   ⟨by decide, (c7_sender_filter _ _ _ _ _ _).2 (by decide)⟩⟩

/-- Unfolding of the attachment loop at a failing send with attachment
errors respected: the sanitized error aborts the loop. -/
theorem attLoop_cons_fail_hard (o : DeliveryOracle) (cfg : TelegramConfig)
    (chatId : List Char) (rc : TelegramAPIMessage) (a : FormattedAttachment)
    (rest : List FormattedAttachment) (e : List Char)
    (hsa : o.sendAtt a chatId rc = some e)
    (hre : cfg.forwardedAttachmentRespectErrors = true) :
    sendAttachmentsLoop o cfg chatId rc (a :: rest) =
      (some (SanitizeBotToken e cfg.telegramBotToken),
        [SendAction.att chatId a]) := by
  simp only [sendAttachmentsLoop, hsa, hre]
  simp

/-- Unfolding of the attachment loop at a failing send with soft-fail:
the error is dropped and the loop continues. -/
theorem attLoop_cons_fail_soft (o : DeliveryOracle) (cfg : TelegramConfig)
    (chatId : List Char) (rc : TelegramAPIMessage) (a : FormattedAttachment)
    (rest : List FormattedAttachment) (e : List Char)
    (hsa : o.sendAtt a chatId rc = some e)
    (hre : cfg.forwardedAttachmentRespectErrors = false) :
    sendAttachmentsLoop o cfg chatId rc (a :: rest) =
      ((sendAttachmentsLoop o cfg chatId rc rest).1,
        SendAction.att chatId a :: (sendAttachmentsLoop o cfg chatId rc rest).2) := by
  simp only [sendAttachmentsLoop, hsa, hre]
  rfl

/-- Unfolding of the attachment loop at a successful send. -/
theorem attLoop_cons_ok (o : DeliveryOracle) (cfg : TelegramConfig)
    (chatId : List Char) (rc : TelegramAPIMessage) (a : FormattedAttachment)
    (rest : List FormattedAttachment)
    (hsa : o.sendAtt a chatId rc = none) :
    sendAttachmentsLoop o cfg chatId rc (a :: rest) =
      ((sendAttachmentsLoop o cfg chatId rc rest).1,
        SendAction.att chatId a :: (sendAttachmentsLoop o cfg chatId rc rest).2) := by
  simp only [sendAttachmentsLoop, hsa]

/-- The attachment loop reports an error exactly when attachment errors
are respected and some attachment send fails. -/
theorem attLoop_error_iff (o : DeliveryOracle) (cfg : TelegramConfig)
    (chatId : List Char) (rc : TelegramAPIMessage)
    (atts : List FormattedAttachment) :
    (sendAttachmentsLoop o cfg chatId rc atts).1.isSome = true ↔
      cfg.forwardedAttachmentRespectErrors = true ∧
        ∃ a ∈ atts, (o.sendAtt a chatId rc).isSome = true := by
  induction atts with
  | nil => simp [sendAttachmentsLoop]
  | cons a rest ih =>
    rcases hsa : o.sendAtt a chatId rc with _ | e
    · rw [attLoop_cons_ok o cfg chatId rc a rest hsa]
      simpa [hsa] using ih
    · rcases hre : cfg.forwardedAttachmentRespectErrors with _ | _
      · rw [attLoop_cons_fail_soft o cfg chatId rc a rest e hsa hre]
        simpa [hre, hsa] using ih
      · rw [attLoop_cons_fail_hard o cfg chatId rc a rest e hsa hre]
        simp [hre, hsa]

/-- Every error reported by the attachment loop is a sanitized error. -/
theorem attLoop_error_sanitized (o : DeliveryOracle) (cfg : TelegramConfig)
    (chatId : List Char) (rc : TelegramAPIMessage)
    (atts : List FormattedAttachment) (e : List Char)
    (h : (sendAttachmentsLoop o cfg chatId rc atts).1 = some e) :
    ∃ e0, e = SanitizeBotToken e0 cfg.telegramBotToken := by
  induction atts with
  | nil => simp [sendAttachmentsLoop] at h
  | cons a rest ih =>
    rcases hsa : o.sendAtt a chatId rc with _ | e1
    · rw [attLoop_cons_ok o cfg chatId rc a rest hsa] at h
      exact ih h
    · rcases hre : cfg.forwardedAttachmentRespectErrors with _ | _
      · rw [attLoop_cons_fail_soft o cfg chatId rc a rest e1 hsa hre] at h
        exact ih h
      · rw [attLoop_cons_fail_hard o cfg chatId rc a rest e1 hsa hre] at h
        cases h
        exact ⟨e1, rfl⟩

/-- With soft-fail configured, the attachment loop attempts every
attachment. -/
theorem attLoop_trace_all (o : DeliveryOracle) (cfg : TelegramConfig)
    (chatId : List Char) (rc : TelegramAPIMessage)
    (atts : List FormattedAttachment)
    (hre : cfg.forwardedAttachmentRespectErrors = false) :
    ∀ a ∈ atts, SendAction.att chatId a ∈
      (sendAttachmentsLoop o cfg chatId rc atts).2 := by
  induction atts with
  | nil => simp
  | cons a rest ih =>
    intro b hb
    have hmem : b = a ∨ b ∈ rest := List.mem_cons.1 hb
    rcases hsa : o.sendAtt a chatId rc with _ | e1
    · rw [attLoop_cons_ok o cfg chatId rc a rest hsa]
      rcases hmem with h1 | h1
      · subst h1; simp
      · exact List.mem_cons_of_mem _ (ih b h1)
    · rw [attLoop_cons_fail_soft o cfg chatId rc a rest e1 hsa hre]
      rcases hmem with h1 | h1
      · subst h1; simp
      · exact List.mem_cons_of_mem _ (ih b h1)

/-- With soft-fail configured, the attachment loop reports no error. -/
theorem attLoop_none_of_soft (o : DeliveryOracle) (cfg : TelegramConfig)
    (chatId : List Char) (rc : TelegramAPIMessage)
    (atts : List FormattedAttachment)
    (hre : cfg.forwardedAttachmentRespectErrors = false) :
    (sendAttachmentsLoop o cfg chatId rc atts).1 = none := by
  rcases h : (sendAttachmentsLoop o cfg chatId rc atts).1 with _ | e
  · rfl
  · have := (attLoop_error_iff o cfg chatId rc atts).1 (by simp [h])
    rw [hre] at this
    cases this.1

/-- Unfolding of the dispatch loop at a non-matching destination. -/
theorem dispatchLoop_cons_skip (o : DeliveryOracle) (cfg : TelegramConfig)
    (sender : List Char) (message : FormattedEmail) (d : List Char)
    (rest : List (List Char)) (hm : ¬((parseDest d).1 <:+: sender)) :
    sendEmailLoop o cfg sender message (d :: rest) =
      sendEmailLoop o cfg sender message rest := by
  simp only [sendEmailLoop]
  rw [if_neg hm]

/-- Unfolding of the dispatch loop at a matching destination whose
primary text send fails. -/
theorem dispatchLoop_cons_text_error (o : DeliveryOracle)
    (cfg : TelegramConfig) (sender : List Char) (message : FormattedEmail)
    (d : List Char) (rest : List (List Char)) (e : List Char)
    (hm : (parseDest d).1 <:+: sender)
    (hst : o.sendText (parseDest d).2 message.text = .error e) :
    sendEmailLoop o cfg sender message (d :: rest) =
      (.error (SanitizeBotToken e cfg.telegramBotToken),
        [SendAction.text (parseDest d).2]) := by
  simp only [sendEmailLoop, hst]
  rw [if_pos hm]

/-- Unfolding of the dispatch loop at a matching destination whose
attachment loop aborts. -/
theorem dispatchLoop_cons_att_error (o : DeliveryOracle)
    (cfg : TelegramConfig) (sender : List Char) (message : FormattedEmail)
    (d : List Char) (rest : List (List Char)) (rc : TelegramAPIMessage)
    (e' : List Char) (hm : (parseDest d).1 <:+: sender)
    (hst : o.sendText (parseDest d).2 message.text = .ok rc)
    (hal : (sendAttachmentsLoop o cfg (parseDest d).2 rc
      message.attachments).1 = some e') :
    sendEmailLoop o cfg sender message (d :: rest) =
      (.error e', SendAction.text (parseDest d).2 ::
        (sendAttachmentsLoop o cfg (parseDest d).2 rc message.attachments).2) := by
  simp only [sendEmailLoop, hst, hal]
  rw [if_pos hm]

/-- Unfolding of the dispatch loop at a matching destination that was
fully processed (text sent, attachment loop did not abort). -/
theorem dispatchLoop_cons_ok (o : DeliveryOracle) (cfg : TelegramConfig)
    (sender : List Char) (message : FormattedEmail) (d : List Char)
    (rest : List (List Char)) (rc : TelegramAPIMessage)
    (hm : (parseDest d).1 <:+: sender)
    (hst : o.sendText (parseDest d).2 message.text = .ok rc)
    (hal : (sendAttachmentsLoop o cfg (parseDest d).2 rc
      message.attachments).1 = none) :
    sendEmailLoop o cfg sender message (d :: rest) =
      ((sendEmailLoop o cfg sender message rest).1,
        SendAction.text (parseDest d).2 ::
          (sendAttachmentsLoop o cfg (parseDest d).2 rc message.attachments).2 ++
          (sendEmailLoop o cfg sender message rest).2) := by
  simp only [sendEmailLoop, hst, hal]
  rw [if_pos hm]

/-- The dispatch loop returns an error exactly when some matching
destination is faulty. -/
theorem dispatch_error_iff (o : DeliveryOracle) (cfg : TelegramConfig)
    (sender : List Char) (message : FormattedEmail)
    (dests : List (List Char)) :
    (∃ e, (sendEmailLoop o cfg sender message dests).1 = .error e) ↔
      ∃ d ∈ dests, destMatches sender d ∧ destFaulty o cfg message d := by
  induction dests with
  | nil => simp [sendEmailLoop]
  | cons d rest ih =>
    by_cases hm : (parseDest d).1 <:+: sender
    · rcases hst : o.sendText (parseDest d).2 message.text with e | rc
      · rw [dispatchLoop_cons_text_error o cfg sender message d rest e hm hst]
        constructor
        · intro _
          exact ⟨d, List.mem_cons_self d rest, hm, by simp [destFaulty, hst]⟩
        · intro _
          exact ⟨_, rfl⟩
      · rcases hal : (sendAttachmentsLoop o cfg (parseDest d).2 rc
            message.attachments).1 with _ | e'
        · have hstep : (∃ e, (sendEmailLoop o cfg sender message (d :: rest)).1 =
              Except.error e) ↔
              ∃ e, (sendEmailLoop o cfg sender message rest).1 = Except.error e := by
            rw [dispatchLoop_cons_ok o cfg sender message d rest rc hm hst hal]
          rw [hstep, ih]
          constructor
          · rintro ⟨d', hd', h⟩
            exact ⟨d', List.mem_cons_of_mem _ hd', h⟩
          · rintro ⟨d', hd', hm', hf'⟩
            rcases List.mem_cons.1 hd' with h1 | h1
            · subst h1
              simp only [destFaulty, hst] at hf'
              have hsome : (sendAttachmentsLoop o cfg (parseDest d').2 rc
                  message.attachments).1.isSome = true :=
                (attLoop_error_iff o cfg (parseDest d').2 rc
                  message.attachments).2 hf'
              rw [hal] at hsome
              cases hsome
            · exact ⟨d', h1, hm', hf'⟩
        · rw [dispatchLoop_cons_att_error o cfg sender message d rest rc e' hm hst hal]
          constructor
          · intro _
            refine ⟨d, List.mem_cons_self d rest, hm, ?_⟩
            simp only [destFaulty, hst]
            exact (attLoop_error_iff o cfg (parseDest d).2 rc
              message.attachments).1 (by simp [hal])
          · intro _
            exact ⟨e', rfl⟩
    · rw [dispatchLoop_cons_skip o cfg sender message d rest hm, ih]
      constructor
      · rintro ⟨d', hd', h⟩
        exact ⟨d', List.mem_cons_of_mem _ hd', h⟩
      · rintro ⟨d', hd', hm', hf'⟩
        rcases List.mem_cons.1 hd' with h1 | h1
        · subst h1; exact absurd hm' hm
        · exact ⟨d', h1, hm', hf'⟩

/-- With soft-fail configured and no failing primary send among the
matching destinations, the dispatch succeeds and every attachment is
attempted at every matching destination. -/
theorem dispatch_soft_all_attempted (o : DeliveryOracle)
    (cfg : TelegramConfig) (sender : List Char) (message : FormattedEmail)
    (dests : List (List Char))
    (hre : cfg.forwardedAttachmentRespectErrors = false)
    (hok : ∀ d ∈ dests, destMatches sender d →
      ∀ e, o.sendText (parseDest d).2 message.text ≠ .error e) :
    (sendEmailLoop o cfg sender message dests).1 = .ok () ∧
    ∀ d ∈ dests, destMatches sender d → ∀ a ∈ message.attachments,
      SendAction.att (parseDest d).2 a ∈
        (sendEmailLoop o cfg sender message dests).2 := by
  induction dests with
  | nil => simp [sendEmailLoop]
  | cons d rest ih =>
    have ihr := ih (fun d' hd' => hok d' (List.mem_cons_of_mem _ hd'))
    by_cases hm : (parseDest d).1 <:+: sender
    · rcases hst : o.sendText (parseDest d).2 message.text with e | rc
      · exact absurd hst (hok d (List.mem_cons_self d rest) hm e)
      · rw [dispatchLoop_cons_ok o cfg sender message d rest rc hm hst
          (attLoop_none_of_soft o cfg (parseDest d).2 rc message.attachments hre)]
        refine ⟨ihr.1, ?_⟩
        intro d' hd' hm' a ha
        rcases List.mem_cons.1 hd' with h1 | h1
        · subst h1
          exact List.mem_cons_of_mem _ (List.mem_append_left _
            (attLoop_trace_all o cfg (parseDest d').2 rc
              message.attachments hre a ha))
        · exact List.mem_cons_of_mem _ (List.mem_append_right _
            (ihr.2 d' h1 hm' a ha))
    · rw [dispatchLoop_cons_skip o cfg sender message d rest hm]
      refine ⟨ihr.1, ?_⟩
      intro d' hd' hm' a ha
      rcases List.mem_cons.1 hd' with h1 | h1
      · subst h1; exact absurd hm' hm
      · exact ihr.2 d' h1 hm' a ha

/-- C8: the dispatch returns an error iff the primary text send to some
matching destination fails — a head-position primary failure returns
that (sanitized) error immediately with no attachment or later
destination attempted — or attachment errors are respected and some
attachment send fails; with soft-fail configured and no primary
failures, every attachment is attempted at every matching destination
and the dispatch succeeds. -/
theorem c8_dispatch_failure_policy (o : DeliveryOracle)
    (cfg : TelegramConfig) (sender : List Char) (message : FormattedEmail) :
    (∀ dests, (∃ e, (sendEmailLoop o cfg sender message dests).1 = .error e) ↔
      ∃ d ∈ dests, destMatches sender d ∧ destFaulty o cfg message d) ∧
    (∀ d rest e, destMatches sender d →
      o.sendText (parseDest d).2 message.text = .error e →
      sendEmailLoop o cfg sender message (d :: rest) =
        (.error (SanitizeBotToken e cfg.telegramBotToken),
          [SendAction.text (parseDest d).2])) ∧
    (cfg.forwardedAttachmentRespectErrors = false →
      ∀ dests, (∀ d ∈ dests, destMatches sender d →
          ∀ e, o.sendText (parseDest d).2 message.text ≠ .error e) →
        (sendEmailLoop o cfg sender message dests).1 = .ok () ∧
        ∀ d ∈ dests, destMatches sender d → ∀ a ∈ message.attachments,
          SendAction.att (parseDest d).2 a ∈
            (sendEmailLoop o cfg sender message dests).2) :=
  ⟨fun dests => dispatch_error_iff o cfg sender message dests,
   fun d rest e hm hst =>
     dispatchLoop_cons_text_error o cfg sender message d rest e hm hst,
   fun hre dests hok =>
     dispatch_soft_all_attempted o cfg sender message dests hre hok⟩

/-- Witness for C8 at the spec's scenario: the primary send to
destination `111` fails with a network error; the dispatch returns that
(sanitized) error immediately and destination `222`, configured after
it, is never attempted. -/
theorem c8_dispatch_failure_policy_witness :
    sendEmailLoop
        { sendText := fun _ _ => .error "network error".toList,
          sendAtt := fun _ _ _ => none }
        { telegramChatIds := "111,222".toList, telegramBotToken := "tok".toList,
          messageTemplate := [], forwardedAttachmentMaxSize := 0,
          forwardedAttachmentMaxPhotoSize := 0,
          forwardedAttachmentRespectErrors := false,
          messageLengthToSendAsFile := 4095 }
        "a@x".toList { text := "t".toList, attachments := [] }
        ["111".toList, "222".toList] =
      (.error (SanitizeBotToken "network error".toList "tok".toList),
        [SendAction.text "111".toList]) :=
  (c8_dispatch_failure_policy
      { sendText := fun _ _ => .error "network error".toList,
        sendAtt := fun _ _ _ => none }
      { telegramChatIds := "111,222".toList, telegramBotToken := "tok".toList,
        messageTemplate := [], forwardedAttachmentMaxSize := 0,
        forwardedAttachmentMaxPhotoSize := 0,
        forwardedAttachmentRespectErrors := false,
        messageLengthToSendAsFile := 4095 }
      "a@x".toList { text := "t".toList, attachments := [] }).2.1
    "111".toList ["222".toList] "network error".toList (by decide) rfl

/-- Unfolding of `goReplaceAll` at a match. -/
theorem goReplaceAll_cons_match (pat rep : List Char) (c : Char)
    (rest : List Char) (h1 : pat.isPrefixOf (c :: rest) = true)
    (h2 : pat ≠ []) :
    goReplaceAll pat rep (c :: rest) =
      rep ++ goReplaceAll pat rep (rest.drop (pat.length - 1)) := by
  rw [goReplaceAll]
  simp [h1, h2]

/-- Unfolding of `goReplaceAll` at a non-match. -/
theorem goReplaceAll_cons_nomatch (pat rep : List Char) (c : Char)
    (rest : List Char) (h : ¬(pat.isPrefixOf (c :: rest) = true ∧ pat ≠ [])) :
    goReplaceAll pat rep (c :: rest) = c :: goReplaceAll pat rep rest := by
  rw [goReplaceAll]
  simp only [if_neg h]

/-- A star-free non-empty prefix of the replaced string is a prefix of
the original string: the `***` replacement blocks never contribute to
such a prefix. -/
theorem prefix_of_sanitized (pat : List Char) (s w : List Char)
    (hw : w ≠ []) (hstar : '*' ∉ w)
    (h : w <+: goReplaceAll pat starRep s) : w <+: s := by
  induction s using goReplaceAll.induct pat starRep generalizing w with
  | case1 =>
    simp only [goReplaceAll] at h
    cases List.prefix_nil.1 h
    exact absurd rfl hw
  | case2 c rest hmatch ih =>
    rw [goReplaceAll_cons_match pat starRep c rest hmatch.1 hmatch.2] at h
    rcases w with _ | ⟨w0, w'⟩
    · exact absurd rfl hw
    · rcases List.cons_prefix_cons.1 h with ⟨h0, _⟩
      subst h0
      exact absurd (List.mem_cons_self _ _) hstar
  | case3 c rest hnomatch ih =>
    rw [goReplaceAll_cons_nomatch pat starRep c rest hnomatch] at h
    rcases w with _ | ⟨w0, w'⟩
    · exact absurd rfl hw
    · rcases List.cons_prefix_cons.1 h with ⟨h0, hw'⟩
      subst h0
      rcases w' with _ | ⟨w1, w''⟩
      · exact List.cons_prefix_cons.2 ⟨rfl, List.nil_prefix⟩
      · have := ih (w1 :: w'') (by simp)
          (fun hm => hstar (List.mem_cons_of_mem _ hm)) hw'
        exact List.cons_prefix_cons.2 ⟨rfl, this⟩

/-- A star-free non-empty token occurring in `'*' :: l` occurs in `l`. -/
theorem infix_of_cons_star (token l : List Char) (hne : token ≠ [])
    (hstar : '*' ∉ token) (h : token <:+: '*' :: l) : token <:+: l := by
  obtain ⟨u, v, huv⟩ := h
  rcases u with _ | ⟨u0, u'⟩
  · rcases token with _ | ⟨t0, t'⟩
    · exact absurd rfl hne
    · simp only [List.nil_append, List.cons_append, List.cons.injEq] at huv
      rcases huv with ⟨h0, _⟩
      subst h0
      exact absurd (List.mem_cons_self _ _) hstar
  · simp only [List.cons_append, List.cons.injEq] at huv
    exact ⟨u', v, huv.2⟩

/-- After `SanitizeBotToken`, the token (non-empty, star-free) no longer
occurs as a substring anywhere in the result. -/
theorem sanitize_no_token (token s : List Char) (hne : token ≠ [])
    (hstar : '*' ∉ token) :
    ¬(token <:+: goReplaceAll token starRep s) := by
  induction s using goReplaceAll.induct token starRep with
  | case1 =>
    intro h
    simp only [goReplaceAll] at h
    cases List.eq_nil_of_infix_nil h
    exact absurd rfl hne
  | case2 c rest hmatch ih =>
    intro h
    rw [goReplaceAll_cons_match token starRep c rest hmatch.1 hmatch.2] at h
    have h1 : token <:+: goReplaceAll token starRep (rest.drop (token.length - 1)) := by
      have s3 := infix_of_cons_star token _ hne hstar h
      have s2 := infix_of_cons_star token _ hne hstar s3
      exact infix_of_cons_star token _ hne hstar s2
    exact ih h1
  | case3 c rest hnomatch ih =>
    intro h
    rw [goReplaceAll_cons_nomatch token starRep c rest hnomatch] at h
    obtain ⟨u, v, huv⟩ := h
    rcases u with _ | ⟨u0, u'⟩
    · have hpre : token <+: goReplaceAll token starRep (c :: rest) := by
        rw [goReplaceAll_cons_nomatch token starRep c rest hnomatch]
        exact ⟨v, huv⟩
      have := prefix_of_sanitized token (c :: rest) token hne hstar hpre
      have hbool : token.isPrefixOf (c :: rest) = true :=
        List.isPrefixOf_iff_prefix.2 this
      exact hnomatch ⟨hbool, hne⟩
    · simp only [List.cons_append, List.cons.injEq] at huv
      exact ih ⟨u', v, huv.2⟩

/-- Every character of a `goReplaceAll` result comes from the
replacement or from the original string. -/
theorem mem_goReplaceAll (pat rep s : List Char) (x : Char)
    (h : x ∈ goReplaceAll pat rep s) : x ∈ rep ∨ x ∈ s := by
  induction s using goReplaceAll.induct pat rep with
  | case1 =>
    simp only [goReplaceAll] at h
    cases h
  | case2 c rest hmatch ih =>
    rw [goReplaceAll_cons_match pat rep c rest hmatch.1 hmatch.2] at h
    rcases List.mem_append.1 h with h1 | h1
    · exact .inl h1
    · rcases ih h1 with h2 | h2
      · exact .inl h2
      · exact .inr (List.mem_cons_of_mem _ (List.mem_of_mem_drop h2))
  | case3 c rest hnomatch ih =>
    rw [goReplaceAll_cons_nomatch pat rep c rest hnomatch] at h
    rcases List.mem_cons.1 h with h1 | h1
    · exact .inr (h1 ▸ List.mem_cons_self _ _)
    · rcases ih h1 with h2 | h2
      · exact .inl h2
      · exact .inr (List.mem_cons_of_mem _ h2)

/-- Replacing the single-character pattern `[x]` removes `x` entirely
when the replacement does not contain it. -/
theorem not_mem_goReplaceAll_single (x : Char) (rep s : List Char)
    (hrep : x ∉ rep) : x ∉ goReplaceAll [x] rep s := by
  induction s using goReplaceAll.induct [x] rep with
  | case1 =>
    simp [goReplaceAll]
  | case2 c rest hmatch ih =>
    rw [goReplaceAll_cons_match [x] rep c rest hmatch.1 hmatch.2]
    intro h
    rcases List.mem_append.1 h with h1 | h1
    · exact hrep h1
    · exact ih h1
  | case3 c rest hnomatch ih =>
    rw [goReplaceAll_cons_nomatch [x] rep c rest hnomatch]
    intro h
    rcases List.mem_cons.1 h with h1 | h1
    · subst h1
      exact hnomatch ⟨by simp [List.isPrefixOf], by simp⟩
    · exact ih h1

/-- `EscapeMultiLine` leaves neither a raw carriage return nor a raw
newline in its output. -/
theorem escapeMultiLine_no_crlf (b : List Char) :
    '\r' ∉ EscapeMultiLine b ∧ '\n' ∉ EscapeMultiLine b := by
  unfold EscapeMultiLine
  constructor
  · intro h
    rcases mem_goReplaceAll _ _ _ _ h with h1 | h1
    · simp at h1
    · exact not_mem_goReplaceAll_single '\r' "\\r".toList b (by simp) h1
  · exact not_mem_goReplaceAll_single '\n' "\\n".toList _ (by simp)

/-- The characters of the decimal rendering are digits; in particular
they are not control characters. -/
theorem natDecimal_no_crlf (n : Nat) :
    ∀ c ∈ natDecimal n, c ≠ '\r' ∧ c ≠ '\n' := by
  induction n using natDecimal.induct with
  | case1 x hx =>
    rw [natDecimal, dif_pos hx]
    interval_cases x <;> decide
  | case2 x hx ih =>
    rw [natDecimal, dif_neg hx]
    intro c hc
    rcases List.mem_append.1 hc with h1 | h1
    · exact ih c h1
    · rcases List.mem_singleton.1 h1 with rfl
      have hk : x % 10 < 10 := Nat.mod_lt _ (by omega)
      generalize x % 10 = k at hk ⊢
      interval_cases k <;> decide

/-- Every error returned by the dispatch loop is a sanitized error. -/
theorem dispatch_error_sanitized (o : DeliveryOracle) (cfg : TelegramConfig)
    (sender : List Char) (message : FormattedEmail)
    (dests : List (List Char)) (e : List Char)
    (h : (sendEmailLoop o cfg sender message dests).1 = .error e) :
    ∃ e0, e = SanitizeBotToken e0 cfg.telegramBotToken := by
  induction dests with
  | nil => simp [sendEmailLoop] at h
  | cons d rest ih =>
    by_cases hm : (parseDest d).1 <:+: sender
    · rcases hst : o.sendText (parseDest d).2 message.text with e1 | rc
      · rw [dispatchLoop_cons_text_error o cfg sender message d rest e1 hm hst] at h
        cases h
        exact ⟨e1, rfl⟩
      · rcases hal : (sendAttachmentsLoop o cfg (parseDest d).2 rc
            message.attachments).1 with _ | e'
        · rw [dispatchLoop_cons_ok o cfg sender message d rest rc hm hst hal] at h
          exact ih h
        · rw [dispatchLoop_cons_att_error o cfg sender message d rest rc e'
            hm hst hal] at h
          cases h
          exact attLoop_error_sanitized o cfg (parseDest d).2 rc
            message.attachments _ hal
    · rw [dispatchLoop_cons_skip o cfg sender message d rest hm] at h
      exact ih h

/-- C9 (amended): every error surfaced by the dispatch component is
token-redacted — for a non-empty bot token that does not contain the
replacement character `*`, the token never occurs as a substring of the
returned error — and the errors built for non-200 platform responses
contain no raw carriage return or newline (the body is escaped); the
`ok != true` error path, however, embeds the raw response body, so
newline-freedom does not extend to it (see the counterexample). -/
theorem c9_error_redaction :
    (∀ (o : DeliveryOracle) (cfg : TelegramConfig) (sender : List Char)
        (message : FormattedEmail) (dests : List (List Char)) (e : List Char),
      cfg.telegramBotToken ≠ [] → '*' ∉ cfg.telegramBotToken →
      (sendEmailLoop o cfg sender message dests).1 = .error e →
      ¬(cfg.telegramBotToken <:+: e)) ∧
    (∀ (statusCode : Nat) (body : List Char),
      ∀ c ∈ non200Error statusCode body, c ≠ '\r' ∧ c ≠ '\n') := by
  constructor
  · intro o cfg sender message dests e hne hstar h
    obtain ⟨e0, rfl⟩ := dispatch_error_sanitized o cfg sender message dests e h
    exact sanitize_no_token cfg.telegramBotToken e0 hne hstar
  · intro statusCode body c hc
    simp only [non200Error, List.append_assoc, List.mem_append] at hc
    rcases hc with h1 | h1 | h1 | h1
    · have hall : ∀ x ∈ "Non-200 response from Telegram: (".toList,
          x ≠ '\r' ∧ x ≠ '\n' := by decide
      exact hall c h1
    · exact natDecimal_no_crlf statusCode c h1
    · have hall : ∀ x ∈ ") ".toList, x ≠ '\r' ∧ x ≠ '\n' := by decide
      exact hall c h1
    · have := escapeMultiLine_no_crlf body
      exact ⟨fun hh => this.1 (hh ▸ h1), fun hh => this.2 (hh ▸ h1)⟩

unseal goReplaceAll natDecimal in
/-- Witness for C9 at a concrete input: a failing primary send whose
error text embeds a platform body, under the test-suite bot token
`42:ZZZ`; the surfaced error does not contain the token.  The second
conjunct evaluates the non-200 error builder at status 400, body
`Error`. -/
theorem c9_error_redaction_witness :
    (sendEmailLoop
        { sendText := fun _ _ => .error (okNotTrueError okFalseJsonBody),
          sendAtt := fun _ _ _ => none }
        { telegramChatIds := "42".toList, telegramBotToken := "42:ZZZ".toList,
          messageTemplate := [], forwardedAttachmentMaxSize := 0,
          forwardedAttachmentMaxPhotoSize := 0,
          forwardedAttachmentRespectErrors := false,
          messageLengthToSendAsFile := 4095 }
        "a@x".toList { text := "t".toList, attachments := [] }
        ["42".toList]).1 =
      .error (SanitizeBotToken (okNotTrueError okFalseJsonBody) "42:ZZZ".toList) ∧
    ¬("42:ZZZ".toList <:+:
      SanitizeBotToken (okNotTrueError okFalseJsonBody) "42:ZZZ".toList) ∧
    ('4' ∈ non200Error 400 "Error".toList ∧
      '4' ≠ '\r' ∧ '4' ≠ '\n') :=
  ⟨by decide,
   c9_error_redaction.1
     { sendText := fun _ _ => .error (okNotTrueError okFalseJsonBody),
       sendAtt := fun _ _ _ => none }
     { telegramChatIds := "42".toList, telegramBotToken := "42:ZZZ".toList,
       messageTemplate := [], forwardedAttachmentMaxSize := 0,
       forwardedAttachmentMaxPhotoSize := 0,
       forwardedAttachmentRespectErrors := false,
       messageLengthToSendAsFile := 4095 }
     "a@x".toList { text := "t".toList, attachments := [] }
     ["42".toList] _ (by decide) (by decide) (by decide),
   ⟨by decide, c9_error_redaction.2 400 "Error".toList '4' (by decide)⟩⟩

unseal goReplaceAll in
/-- C9 counterexample: the claim asserted that no surfaced error
contains raw newlines and that the token never survives.  First
conjunct: the `ok != true` path embeds the raw response body, and the
dispatch error built from it retains the raw newline.  Second conjunct:
a token containing the replacement marker (`a***b`) can be re-created by
the replacement itself, so token-freedom also fails for such tokens. -/
theorem c9_cx_newline_survives :
    ((sendEmailLoop
        { sendText := fun _ _ => .error (okNotTrueError okFalseJsonBody),
          sendAtt := fun _ _ _ => none }
        { telegramChatIds := "42".toList, telegramBotToken := "42:ZZZ".toList,
          messageTemplate := [], forwardedAttachmentMaxSize := 0,
          forwardedAttachmentMaxPhotoSize := 0,
          forwardedAttachmentRespectErrors := false,
          messageLengthToSendAsFile := 4095 }
        "a@x".toList { text := "t".toList, attachments := [] }
        ["42".toList]).1 =
      .error (SanitizeBotToken (okNotTrueError okFalseJsonBody) "42:ZZZ".toList)) ∧
    '\n' ∈ SanitizeBotToken (okNotTrueError okFalseJsonBody) "42:ZZZ".toList ∧
    ("a***b".toList <:+: SanitizeBotToken "aa***bb".toList "a***b".toList) := by
  refine ⟨by decide, by decide, by decide⟩



theorem findMatch_pairs (f t s d b str : List Char) :
    findMatch (replacerPairs f t s d b) str =
      if escNL.isPrefixOf str then some (escNL, "\n".toList)
      else if tokFrom.isPrefixOf str then some (tokFrom, f)
      else if tokTo.isPrefixOf str then some (tokTo, t)
      else if tokSubject.isPrefixOf str then some (tokSubject, s)
      else if tokBody.isPrefixOf str then some (tokBody, b)
      else if tokDetails.isPrefixOf str then some (tokDetails, d)
      else none := by
  have e1 : (!escNL.isEmpty) = true := rfl
  have e2 : (!tokFrom.isEmpty) = true := rfl
  have e3 : (!tokTo.isEmpty) = true := rfl
  have e4 : (!tokSubject.isEmpty) = true := rfl
  have e5 : (!tokBody.isEmpty) = true := rfl
  have e6 : (!tokDetails.isEmpty) = true := rfl
  simp only [findMatch, replacerPairs, List.find?, e1, e2, e3, e4, e5, e6,
    Bool.true_and]
  repeat' split <;> simp_all [← List.isPrefixOf_iff_prefix]



theorem renderPieces_cons (b : List Char) (p : Piece) (ps : List Piece) :
    renderPieces b (p :: ps) =
      (match p with | .raw s => s | .body => b) ++ renderPieces b ps := by
  simp [renderPieces]

theorem goReplace_cons_match (pairs : List (List Char × List Char)) (c : Char)
    (rest pat rep : List Char)
    (hfm : findMatch pairs (c :: rest) = some (pat, rep)) :
    goReplace pairs (c :: rest) =
      rep ++ goReplace pairs (rest.drop (pat.length - 1)) := by
  rw [goReplace, hfm]

theorem goReplace_cons_nomatch (pairs : List (List Char × List Char)) (c : Char)
    (rest : List Char) (hfm : findMatch pairs (c :: rest) = none) :
    goReplace pairs (c :: rest) = c :: goReplace pairs rest := by
  rw [goReplace, hfm]

theorem scanPieces_cons_match (f t s d : List Char) (c : Char)
    (rest pat rep : List Char)
    (hfm : findMatch (replacerPairs f t s d tokBody) (c :: rest) = some (pat, rep)) :
    scanPieces f t s d (c :: rest) =
      (if pat = tokBody then Piece.body else Piece.raw rep) ::
        scanPieces f t s d (rest.drop (pat.length - 1)) := by
  rw [scanPieces, hfm]

theorem scanPieces_cons_nomatch (f t s d : List Char) (c : Char)
    (rest : List Char)
    (hfm : findMatch (replacerPairs f t s d tokBody) (c :: rest) = none) :
    scanPieces f t s d (c :: rest) = Piece.raw [c] :: scanPieces f t s d rest := by
  rw [scanPieces, hfm]

theorem findMatch_body_transfer (f t s d b str pat rep : List Char)
    (h : findMatch (replacerPairs f t s d b) str = some (pat, rep)) :
    (pat = tokBody ∧ rep = b ∧
      findMatch (replacerPairs f t s d tokBody) str = some (tokBody, tokBody)) ∨
    (pat ≠ tokBody ∧
      findMatch (replacerPairs f t s d tokBody) str = some (pat, rep)) := by
  rw [findMatch_pairs] at h
  split_ifs at h with h1 h2 h3 h4 h5 h6 <;> cases h
  · exact .inr ⟨by decide, by rw [findMatch_pairs, if_pos h1]⟩
  · exact .inr ⟨by decide, by rw [findMatch_pairs, if_neg h1, if_pos h2]⟩
  · exact .inr ⟨by decide, by rw [findMatch_pairs, if_neg h1, if_neg h2, if_pos h3]⟩
  · exact .inr ⟨by decide,
      by rw [findMatch_pairs, if_neg h1, if_neg h2, if_neg h3, if_pos h4]⟩
  · exact .inl ⟨rfl, rfl,
      by rw [findMatch_pairs, if_neg h1, if_neg h2, if_neg h3, if_neg h4, if_pos h5]⟩
  · exact .inr ⟨by decide,
      by rw [findMatch_pairs, if_neg h1, if_neg h2, if_neg h3, if_neg h4, if_neg h5,
        if_pos h6]⟩

theorem findMatch_none_transfer (f t s d b str : List Char)
    (h : findMatch (replacerPairs f t s d b) str = none) :
    findMatch (replacerPairs f t s d tokBody) str = none := by
  rw [findMatch_pairs] at h
  split_ifs at h with h1 h2 h3 h4 h5 h6
  all_goals try cases h
  rw [findMatch_pairs, if_neg h1, if_neg h2, if_neg h3, if_neg h4, if_neg h5,
    if_neg h6]

theorem goReplace_eq_renderPieces (f t s d b : List Char) (tpl : List Char) :
    goReplace (replacerPairs f t s d b) tpl =
      renderPieces b (scanPieces f t s d tpl) := by
  induction tpl using goReplace.induct (replacerPairs f t s d b) with
  | case1 =>
    rw [goReplace, scanPieces]
    rfl
  | case2 c rest pat rep hfm ih =>
    rw [goReplace_cons_match _ c rest pat rep hfm]
    rcases findMatch_body_transfer f t s d b _ pat rep hfm with
      ⟨hpb, hrb, hfm'⟩ | ⟨hpb, hfm'⟩
    · subst hpb
      subst hrb
      rw [scanPieces_cons_match f t s d c rest tokBody tokBody hfm']
      rw [if_pos rfl, renderPieces_cons]
      exact congrArg _ ih
    · rw [scanPieces_cons_match f t s d c rest pat rep hfm']
      rw [if_neg hpb, renderPieces_cons]
      exact congrArg _ ih
  | case3 c rest hfm ih =>
    rw [goReplace_cons_nomatch _ c rest hfm,
      scanPieces_cons_nomatch f t s d c rest
        (findMatch_none_transfer f t s d b _ hfm),
      renderPieces_cons]
    simp only [List.singleton_append]
    exact congrArg _ ih

theorem countBodyPieces_cons_raw (s : List Char) (ps : List Piece) :
    countBodyPieces (Piece.raw s :: ps) = countBodyPieces ps := by
  simp [countBodyPieces, List.countP_cons]

theorem countBodyPieces_cons_body (ps : List Piece) :
    countBodyPieces (Piece.body :: ps) = countBodyPieces ps + 1 := by
  simp [countBodyPieces, List.countP_cons]

theorem renderPieces_length (b : List Char) (ps : List Piece) :
    (renderPieces b ps).length =
      (renderPieces [] ps).length + countBodyPieces ps * b.length := by
  induction ps with
  | nil => simp [renderPieces, countBodyPieces]
  | cons p ps ih =>
    cases p with
    | raw s =>
      rw [renderPieces_cons, renderPieces_cons, countBodyPieces_cons_raw]
      simp only [List.length_append, ih]
      omega
    | body =>
      rw [renderPieces_cons, renderPieces_cons, countBodyPieces_cons_body]
      simp only [List.length_append, ih, List.length_nil, Nat.add_mul,
        Nat.one_mul]
      omega

theorem renderPieces_congr_zero (ps : List Piece)
    (h : countBodyPieces ps = 0) (b b' : List Char) :
    renderPieces b ps = renderPieces b' ps := by
  induction ps with
  | nil => rfl
  | cons p ps ih =>
    cases p with
    | raw s =>
      rw [countBodyPieces_cons_raw] at h
      rw [renderPieces_cons, renderPieces_cons]
      exact congrArg _ (ih h)
    | body =>
      rw [countBodyPieces_cons_body] at h
      omega

theorem renderPieces_decomp (ps : List Piece) :
    countBodyPieces ps = 1 → ∃ A C, ∀ b, renderPieces b ps = A ++ b ++ C := by
  induction ps with
  | nil =>
    intro h
    simp [countBodyPieces] at h
  | cons p ps ih =>
    intro h
    cases p with
    | raw s =>
      rw [countBodyPieces_cons_raw] at h
      obtain ⟨A, C, hAC⟩ := ih h
      refine ⟨s ++ A, C, fun b => ?_⟩
      rw [renderPieces_cons, hAC b]
      simp [List.append_assoc]
    | body =>
      rw [countBodyPieces_cons_body] at h
      have h0 : countBodyPieces ps = 0 := Nat.succ_injective h
      refine ⟨[], renderPieces [] ps, fun b => ?_⟩
      rw [renderPieces_cons]
      simp only [List.nil_append]
      exact congrArg _ (renderPieces_congr_zero ps h0 b [])

theorem infix_renderPieces (ps : List Piece) (b x : List Char)
    (hx : x <:+: b) :
    1 ≤ countBodyPieces ps → x <:+: renderPieces b ps := by
  induction ps with
  | nil =>
    intro hc
    simp [countBodyPieces] at hc
  | cons p ps ih =>
    intro hc
    cases p with
    | raw s =>
      rw [countBodyPieces_cons_raw] at hc
      rw [renderPieces_cons]
      exact (ih hc).trans ((List.suffix_append s _).isInfix)
    | body =>
      rw [renderPieces_cons]
      exact hx.trans ((List.prefix_append b _).isInfix)

theorem head_false_of_dropWhile_self (p : Char → Bool) (c : Char)
    (tl : List Char) (h : (c :: tl).dropWhile p = c :: tl) : p c = false := by
  by_contra hb
  rw [List.dropWhile_cons_of_pos (by simpa using hb)] at h
  have := (List.dropWhile_suffix (l := tl) p).length_le
  have h2 := congrArg List.length h
  simp at h2
  omega

theorem dropWhile_mid (p : Char → Bool) (A x C : List Char) (hx : x ≠ [])
    (hxl : x.dropWhile p = x) :
    (A ++ x ++ C).dropWhile p = A.dropWhile p ++ x ++ C := by
  rcases x with _ | ⟨c, tl⟩
  · exact absurd rfl hx
  · have hpc : p c = false := head_false_of_dropWhile_self p c tl hxl
    rw [List.append_assoc, List.dropWhile_append]
    split_ifs with hA
    · rw [List.isEmpty_iff] at hA
      rw [hA, List.nil_append, List.cons_append,
        List.dropWhile_cons_of_neg (by simp [hpc])]
    · rw [List.append_assoc]

theorem dropWhile_idem (p : Char → Bool) (l : List Char) :
    (l.dropWhile p).dropWhile p = l.dropWhile p := by
  induction l with
  | nil => rfl
  | cons a l ih =>
    by_cases ha : p a
    · rw [List.dropWhile_cons_of_pos ha]
      exact ih
    · rw [List.dropWhile_cons_of_neg ha, List.dropWhile_cons_of_neg ha]

theorem dropWhile_self_of_prefix (p : Char → Bool) (l l' : List Char)
    (h : l.dropWhile p = l) (hp : l' <+: l) : l'.dropWhile p = l' := by
  rcases l' with _ | ⟨c, tl⟩
  · rfl
  · obtain ⟨r, hr⟩ := hp
    subst hr
    have hpc : p c = false :=
      head_false_of_dropWhile_self p c (tl ++ r) (by simpa using h)
    rw [List.dropWhile_cons_of_neg (by simp [hpc])]

theorem goTrimSpace_mid (A x C : List Char) (hx : x ≠ [])
    (hxl : x.dropWhile isSpaceChar = x)
    (hxr : x.reverse.dropWhile isSpaceChar = x.reverse) :
    goTrimSpace (A ++ x ++ C) =
      A.dropWhile isSpaceChar ++ x ++
        (C.reverse.dropWhile isSpaceChar).reverse := by
  unfold goTrimSpace
  rw [dropWhile_mid isSpaceChar A x C hx hxl]
  rw [show (A.dropWhile isSpaceChar ++ x ++ C).reverse =
      C.reverse ++ x.reverse ++ (A.dropWhile isSpaceChar).reverse by simp]
  rw [dropWhile_mid isSpaceChar C.reverse x.reverse
      ((A.dropWhile isSpaceChar).reverse) (by simpa using hx) hxr]
  simp

theorem goTrimSpace_left_trimmed (s : List Char) :
    (goTrimSpace s).dropWhile isSpaceChar = goTrimSpace s := by
  unfold goTrimSpace
  have hsfx : ((s.dropWhile isSpaceChar).reverse.dropWhile isSpaceChar).reverse
      <+: s.dropWhile isSpaceChar := by
    have h1 : (s.dropWhile isSpaceChar).reverse.dropWhile isSpaceChar <:+
        (s.dropWhile isSpaceChar).reverse := List.dropWhile_suffix _
    have h2 := List.reverse_prefix.2 h1
    simpa using h2
  exact dropWhile_self_of_prefix isSpaceChar _ _ (dropWhile_idem isSpaceChar s)
    hsfx

theorem goTrimSpace_right_trimmed (s : List Char) :
    (goTrimSpace s).reverse.dropWhile isSpaceChar = (goTrimSpace s).reverse := by
  unfold goTrimSpace
  rw [List.reverse_reverse]
  exact dropWhile_idem isSpaceChar _

theorem dropWhile_prefix_length_le (p : Char → Bool) (u w : List Char)
    (h : u <+: w) : (u.dropWhile p).length ≤ (w.dropWhile p).length := by
  obtain ⟨r, hr⟩ := h
  subst hr
  rw [List.dropWhile_append]
  split_ifs with hu
  · rw [List.isEmpty_iff] at hu
    simp [hu]
  · simp

theorem dropWhile_append_length_le (p : Char → Bool) (u w : List Char) :
    ((u ++ w).dropWhile p).length ≤ (u.dropWhile p).length + w.length := by
  rw [List.dropWhile_append]
  split_ifs with hu
  · have := (List.dropWhile_suffix (l := w) p).length_le
    omega
  · simp

theorem goTrimSpace_length_le (A C : List Char) :
    (goTrimSpace (A ++ C)).length ≤
      (A.dropWhile isSpaceChar).length +
        (C.reverse.dropWhile isSpaceChar).length := by
  unfold goTrimSpace
  rw [List.length_reverse]
  rw [List.dropWhile_append]
  split_ifs with hA
  · have hpre : (C.dropWhile isSpaceChar).reverse <+: C.reverse :=
      List.reverse_prefix.2 (List.dropWhile_suffix isSpaceChar)
    have := dropWhile_prefix_length_le isSpaceChar _ _ hpre
    omega
  · rw [show (A.dropWhile isSpaceChar ++ C).reverse =
        C.reverse ++ (A.dropWhile isSpaceChar).reverse by simp]
    have h1 := dropWhile_append_length_le isSpaceChar C.reverse
      (A.dropWhile isSpaceChar).reverse
    simp only [List.length_reverse] at h1
    omega

theorem infix_dropWhile (p : Char → Bool) (x : List Char) (hx : x ≠ [])
    (hxs : ∀ c ∈ x, p c = false) :
    ∀ s, x <:+: s → x <:+: s.dropWhile p := by
  intro s
  induction s with
  | nil =>
    intro h
    cases List.eq_nil_of_infix_nil h
    exact absurd rfl hx
  | cons c s ih =>
    intro h
    by_cases hc : p c
    · rw [List.dropWhile_cons_of_pos hc]
      obtain ⟨u, v, huv⟩ := h
      rcases u with _ | ⟨u0, u'⟩
      · rcases x with _ | ⟨x0, x'⟩
        · exact absurd rfl hx
        · simp only [List.nil_append, List.cons_append, List.cons.injEq] at huv
          have hx0 : p x0 = false := hxs x0 (List.mem_cons_self _ _)
          rw [huv.1] at hx0
          rw [hx0] at hc
          cases hc
      · simp only [List.cons_append, List.cons.injEq] at huv
        exact ih ⟨u', v, huv.2⟩
    · rw [List.dropWhile_cons_of_neg hc]
      exact h

theorem infix_goTrimSpace (x s : List Char) (hx : x ≠ [])
    (hxs : ∀ c ∈ x, isSpaceChar c = false) (h : x <:+: s) :
    x <:+: goTrimSpace s := by
  unfold goTrimSpace
  have h1 := infix_dropWhile isSpaceChar x hx hxs s h
  have h2 : x.reverse <:+: (s.dropWhile isSpaceChar).reverse :=
    List.reverse_infix.2 h1
  have h3 := infix_dropWhile isSpaceChar x.reverse (by simpa using hx)
    (by intro c hc; exact hxs c (by simpa using hc)) _ h2
  exact List.reverse_infix.1 (by simpa using h3)

theorem renderTemplate_eq (tpl f t s d b : List Char) :
    renderTemplate tpl f t s d b =
      goTrimSpace (renderPieces b (scanPieces f t s d tpl)) := by
  unfold renderTemplate
  rw [goReplace_eq_renderPieces]

theorem goTrimSpace_take_marker (tb : List Char) (k : Nat) (hk : 1 ≤ k)
    (htb : tb.dropWhile isSpaceChar = tb) (hne : tb ≠ []) :
    goTrimSpace (tb.take k ++ BodyTruncated) = tb.take k ++ BodyTruncated := by
  rcases tb with _ | ⟨c, tl⟩
  · exact absurd rfl hne
  · have hpc : isSpaceChar c = false :=
      head_false_of_dropWhile_self isSpaceChar c tl htb
    rcases k with _ | k'
    · omega
    · have htake : (c :: tl).take (k' + 1) = c :: tl.take k' := rfl
      unfold goTrimSpace
      have h1 : ((c :: tl).take (k' + 1) ++ BodyTruncated).dropWhile isSpaceChar
          = (c :: tl).take (k' + 1) ++ BodyTruncated := by
        rw [htake, List.cons_append]
        exact List.dropWhile_cons_of_neg (by simp [hpc])
      rw [h1]
      have hrev : BodyTruncated.reverse = ']' :: "detacnurt[\n\n".toList := by
        decide
      have h2 : ((c :: tl).take (k' + 1) ++ BodyTruncated).reverse.dropWhile
          isSpaceChar = ((c :: tl).take (k' + 1) ++ BodyTruncated).reverse := by
        rw [List.reverse_append, hrev, List.cons_append]
        exact List.dropWhile_cons_of_neg (by decide)
      rw [h2, List.reverse_reverse]

theorem FormatMessage_truncated_inv (from_ to_ subject text details : List Char)
    (cfg : TelegramConfig) (full tr : List Char)
    (h : FormatMessage from_ to_ subject text details cfg = .truncated full tr) :
    full = renderTemplate cfg.messageTemplate from_ to_ subject details
      (goTrimSpace text) ∧
    cfg.messageLengthToSendAsFile < full.length ∧
    (renderTemplate cfg.messageTemplate from_ to_ subject details
      (goTrimSpace ('.' :: BodyTruncated))).length <
        cfg.messageLengthToSendAsFile ∧
    tr.length ≤ cfg.messageLengthToSendAsFile ∧
    markerCore <:+: tr := by
  simp only [FormatMessage] at h
  split_ifs at h with h1 h2 h3 h4 <;> cases h
  refine ⟨rfl, by omega, by omega, by omega, ?_⟩
  have hk : 1 ≤ cfg.messageLengthToSendAsFile -
      (renderTemplate cfg.messageTemplate from_ to_ subject details
        (goTrimSpace ('.' :: BodyTruncated))).length := by omega
  have hlen : 1 ≤ (goTrimSpace text).length := by omega
  have hne : goTrimSpace text ≠ [] := by
    intro hnil
    rw [hnil] at hlen
    simp at hlen
  have hbody := goTrimSpace_take_marker (goTrimSpace text) _ hk
    (goTrimSpace_left_trimmed text) hne
  have hmk1 : markerCore <:+: BodyTruncated := by decide
  have hmk : markerCore <:+:
      goTrimSpace ((goTrimSpace text).take
        (cfg.messageLengthToSendAsFile -
          (renderTemplate cfg.messageTemplate from_ to_ subject details
            (goTrimSpace ('.' :: BodyTruncated))).length) ++ BodyTruncated) := by
    rw [hbody]
    exact hmk1.trans (List.suffix_append _ _).isInfix
  have hcb : 1 ≤ countBodyPieces
      (scanPieces from_ to_ subject details cfg.messageTemplate) := by
    by_contra hc
    have hc0 : countBodyPieces
        (scanPieces from_ to_ subject details cfg.messageTemplate) = 0 := by
      omega
    have heq : renderTemplate cfg.messageTemplate from_ to_ subject details
        (goTrimSpace text) =
        renderTemplate cfg.messageTemplate from_ to_ subject details
          (goTrimSpace ('.' :: BodyTruncated)) := by
      rw [renderTemplate_eq, renderTemplate_eq]
      exact congrArg _ (renderPieces_congr_zero _ hc0 _ _)
    rw [heq] at h1
    omega
  rw [renderTemplate_eq]
  refine infix_goTrimSpace markerCore _ (by decide) (by decide) ?_
  exact infix_renderPieces _ _ _ hmk hcb

theorem FormatMessage_noTruncate_inv (from_ to_ subject text details : List Char)
    (cfg : TelegramConfig) (full : List Char)
    (h : FormatMessage from_ to_ subject text details cfg = .noTruncate full) :
    full = renderTemplate cfg.messageTemplate from_ to_ subject details
      (goTrimSpace text) ∧
    full.length ≤ cfg.messageLengthToSendAsFile := by
  simp only [FormatMessage] at h
  split_ifs at h with h1 h2 h3 h4 <;> cases h
  exact ⟨rfl, h1⟩

theorem FormatMessage_hardCut_inv (from_ to_ subject text details : List Char)
    (cfg : TelegramConfig) (full cut : List Char)
    (h : FormatMessage from_ to_ subject text details cfg = .hardCut full cut) :
    full = renderTemplate cfg.messageTemplate from_ to_ subject details
      (goTrimSpace text) ∧
    cfg.messageLengthToSendAsFile < full.length ∧
    cfg.messageLengthToSendAsFile ≤
      (renderTemplate cfg.messageTemplate from_ to_ subject details
        (goTrimSpace ('.' :: BodyTruncated))).length ∧
    cut = full.take cfg.messageLengthToSendAsFile := by
  simp only [FormatMessage] at h
  split_ifs at h with h1 h2 h3 h4 <;> cases h
  exact ⟨rfl, by omega, by omega, rfl⟩


theorem FormatMessage_no_panic (from_ to_ subject text details : List Char)
    (cfg : TelegramConfig)
    (hcb : countBodyPieces
      (scanPieces from_ to_ subject details cfg.messageTemplate) ≤ 1) :
    (FormatMessagePair
      (FormatMessage from_ to_ subject text details cfg)).isSome = true := by
  have hemm : goTrimSpace ('.' :: BodyTruncated) = '.' :: BodyTruncated := by
    decide
  have hmm14 : ('.' :: BodyTruncated).length = 14 := by decide
  simp only [FormatMessage]
  split_ifs with h1 h2 h3 h4
  · rfl
  · rfl
  · exfalso
    rcases Nat.le_one_iff_eq_zero_or_eq_one.1 hcb with hc0 | hc1
    · have heq : renderTemplate cfg.messageTemplate from_ to_ subject details
          (goTrimSpace text) =
          renderTemplate cfg.messageTemplate from_ to_ subject details
            (goTrimSpace ('.' :: BodyTruncated)) := by
        rw [renderTemplate_eq, renderTemplate_eq]
        exact congrArg _ (renderPieces_congr_zero _ hc0 _ _)
      rw [heq] at h1
      omega
    · obtain ⟨A, C, hAC⟩ := renderPieces_decomp _ hc1
      have hE : (renderTemplate cfg.messageTemplate from_ to_ subject details
          (goTrimSpace ('.' :: BodyTruncated))).length =
          (A.dropWhile isSpaceChar).length + 14 +
            (C.reverse.dropWhile isSpaceChar).length := by
        rw [renderTemplate_eq, hAC, hemm,
          goTrimSpace_mid A ('.' :: BodyTruncated) C (by decide) (by decide)
            (by decide)]
        simp only [List.length_append, List.length_reverse, hmm14]
      by_cases htbe : goTrimSpace text = []
      · have hFle : (renderTemplate cfg.messageTemplate from_ to_ subject details
            (goTrimSpace text)).length ≤
            (A.dropWhile isSpaceChar).length +
              (C.reverse.dropWhile isSpaceChar).length := by
          rw [renderTemplate_eq, hAC, htbe,
            show A ++ ([] : List Char) ++ C = A ++ C by simp]
          exact goTrimSpace_length_le A C
        omega
      · have hF : (renderTemplate cfg.messageTemplate from_ to_ subject details
            (goTrimSpace text)).length =
            (A.dropWhile isSpaceChar).length + (goTrimSpace text).length +
              (C.reverse.dropWhile isSpaceChar).length := by
          rw [renderTemplate_eq, hAC,
            goTrimSpace_mid A (goTrimSpace text) C htbe
              (goTrimSpace_left_trimmed text) (goTrimSpace_right_trimmed text)]
          simp only [List.length_append, List.length_reverse]
        omega
  · exfalso
    rcases Nat.le_one_iff_eq_zero_or_eq_one.1 hcb with hc0 | hc1
    · have heq : renderTemplate cfg.messageTemplate from_ to_ subject details
          (goTrimSpace text) =
          renderTemplate cfg.messageTemplate from_ to_ subject details
            (goTrimSpace ('.' :: BodyTruncated)) := by
        rw [renderTemplate_eq, renderTemplate_eq]
        exact congrArg _ (renderPieces_congr_zero _ hc0 _ _)
      rw [heq] at h1
      omega
    · obtain ⟨A, C, hAC⟩ := renderPieces_decomp _ hc1
      have hE : (renderTemplate cfg.messageTemplate from_ to_ subject details
          (goTrimSpace ('.' :: BodyTruncated))).length =
          (A.dropWhile isSpaceChar).length + 14 +
            (C.reverse.dropWhile isSpaceChar).length := by
        rw [renderTemplate_eq, hAC, hemm,
          goTrimSpace_mid A ('.' :: BodyTruncated) C (by decide) (by decide)
            (by decide)]
        simp only [List.length_append, List.length_reverse, hmm14]
      by_cases htbe : goTrimSpace text = []
      · have hFle : (renderTemplate cfg.messageTemplate from_ to_ subject details
            (goTrimSpace text)).length ≤
            (A.dropWhile isSpaceChar).length +
              (C.reverse.dropWhile isSpaceChar).length := by
          rw [renderTemplate_eq, hAC, htbe,
            show A ++ ([] : List Char) ++ C = A ++ C by simp]
          exact goTrimSpace_length_le A C
        omega
      · have hF : (renderTemplate cfg.messageTemplate from_ to_ subject details
            (goTrimSpace text)).length =
            (A.dropWhile isSpaceChar).length + (goTrimSpace text).length +
              (C.reverse.dropWhile isSpaceChar).length := by
          rw [renderTemplate_eq, hAC,
            goTrimSpace_mid A (goTrimSpace text) C htbe
              (goTrimSpace_left_trimmed text) (goTrimSpace_right_trimmed text)]
          simp only [List.length_append, List.length_reverse]
        have hk : 1 ≤ cfg.messageLengthToSendAsFile -
            (renderTemplate cfg.messageTemplate from_ to_ subject details
              (goTrimSpace ('.' :: BodyTruncated))).length := by omega
        have hbody := goTrimSpace_take_marker (goTrimSpace text)
          (cfg.messageLengthToSendAsFile -
            (renderTemplate cfg.messageTemplate from_ to_ subject details
              (goTrimSpace ('.' :: BodyTruncated))).length) hk
          (goTrimSpace_left_trimmed text) htbe
        have hble : (goTrimSpace ((goTrimSpace text).take
            (cfg.messageLengthToSendAsFile -
              (renderTemplate cfg.messageTemplate from_ to_ subject details
                (goTrimSpace ('.' :: BodyTruncated))).length) ++
            BodyTruncated)).length =
            (cfg.messageLengthToSendAsFile -
              (renderTemplate cfg.messageTemplate from_ to_ subject details
                (goTrimSpace ('.' :: BodyTruncated))).length) + 13 := by
          rw [hbody, List.length_append, List.length_take,
            Nat.min_eq_left (by omega),
            show BodyTruncated.length = 13 from by decide]
        have hbne : goTrimSpace ((goTrimSpace text).take
            (cfg.messageLengthToSendAsFile -
              (renderTemplate cfg.messageTemplate from_ to_ subject details
                (goTrimSpace ('.' :: BodyTruncated))).length) ++
            BodyTruncated) ≠ [] := by
          intro hnil
          rw [hnil] at hble
          simp only [List.length_nil] at hble
          omega
        have hT : (renderTemplate cfg.messageTemplate from_ to_ subject details
            (goTrimSpace ((goTrimSpace text).take
              (cfg.messageLengthToSendAsFile -
                (renderTemplate cfg.messageTemplate from_ to_ subject details
                  (goTrimSpace ('.' :: BodyTruncated))).length) ++
              BodyTruncated))).length =
            (A.dropWhile isSpaceChar).length +
              (goTrimSpace ((goTrimSpace text).take
                (cfg.messageLengthToSendAsFile -
                  (renderTemplate cfg.messageTemplate from_ to_ subject details
                    (goTrimSpace ('.' :: BodyTruncated))).length) ++
                BodyTruncated)).length +
              (C.reverse.dropWhile isSpaceChar).length := by
          rw [renderTemplate_eq, hAC,
            goTrimSpace_mid A _ C hbne (goTrimSpace_left_trimmed _)
              (goTrimSpace_right_trimmed _)]
          simp only [List.length_append, List.length_reverse]
        omega
  · rfl


theorem formatEmailFinish_nil (full : List Char)
    (atts : List FormattedAttachment) (cfg : TelegramConfig) :
    formatEmailFinish full [] atts cfg = .ok ⟨full, atts⟩ := by
  simp [formatEmailFinish]

theorem formatEmailFinish_ok_inv (full tr : List Char)
    (atts : List FormattedAttachment) (cfg : TelegramConfig)
    (fe : FormattedEmail) (hne : tr ≠ [])
    (h : formatEmailFinish full tr atts cfg = .ok fe) :
    fe = ⟨tr, fullMessageAttachment full :: atts⟩ := by
  simp only [formatEmailFinish, if_neg hne] at h
  split_ifs at h
  all_goals cases h
  all_goals rfl

theorem markerCore_ne_nil : markerCore ≠ [] := by decide

theorem marker_infix_ne_nil (tr : List Char) (h : markerCore <:+: tr) :
    tr ≠ [] := by
  intro hnil
  rw [hnil] at h
  exact markerCore_ne_nil (List.eq_nil_of_infix_nil h)

theorem goTrimSpace_replicate (n : Nat) (c : Char)
    (hc : isSpaceChar c = false) :
    goTrimSpace (List.replicate n c) = List.replicate n c := by
  have h1 : (List.replicate n c).dropWhile isSpaceChar = List.replicate n c := by
    cases n with
    | zero => rfl
    | succ n =>
      rw [List.replicate_succ]
      exact List.dropWhile_cons_of_neg (by simp [hc])
  unfold goTrimSpace
  rw [h1, List.reverse_replicate, h1, List.reverse_replicate]

theorem scanPieces_tokBody (f t s d : List Char) :
    scanPieces f t s d tokBody = [Piece.body] := by
  have hfm : findMatch (replacerPairs f t s d tokBody)
      ('{' :: tokBody.drop 1) = some (tokBody, tokBody) := by
    rw [findMatch_pairs, if_neg (by decide), if_neg (by decide),
      if_neg (by decide), if_neg (by decide), if_pos (by decide)]
  have h2 := scanPieces_cons_match f t s d '{' (tokBody.drop 1) tokBody
    tokBody hfm
  rw [show tokBody = '{' :: tokBody.drop 1 from by decide, h2, if_pos rfl,
    show (tokBody.drop 1).drop (tokBody.length - 1) = [] from by decide,
    scanPieces]

theorem renderTemplate_tokBody (f t s d b : List Char) :
    renderTemplate tokBody f t s d b = goTrimSpace b := by
  rw [renderTemplate_eq, scanPieces_tokBody]
  have : renderPieces b [Piece.body] = b := by simp [renderPieces]
  rw [this]



set_option maxRecDepth 2000 in
unseal goReplace scanPieces in
/-- C3 counterexample: the claim asserts the invariant-violation panic is
unreachable for every template, but a template substituting `{body}`
twice reaches it: with template `Z{body}{body}`, a 20-character body and
threshold 40, `FormatMessage` hits the explicit length panic (modelled
as `FormatMessagePair = none`). -/
theorem c3_cx_double_body_panics :
    FormatMessagePair (FormatMessage [] [] [] (List.replicate 20 'b') []
      { telegramChatIds := [], telegramBotToken := [],
        messageTemplate := 'Z' :: (tokBody ++ tokBody),
        forwardedAttachmentMaxSize := 0,
        forwardedAttachmentMaxPhotoSize := 0,
        forwardedAttachmentRespectErrors := false,
        messageLengthToSendAsFile := 40 }) = none ∧
    countBodyPieces (scanPieces [] [] [] [] ('Z' :: (tokBody ++ tokBody))) = 2 := by
  refine ⟨by decide, by decide⟩

/-- C3 (amended): for every template whose replacement scan substitutes
`{body}` at most once (the default template among them), the truncation
step never fails — the rune take on the trimmed body is always within
bounds and the re-rendered message never exceeds the threshold, so
`FormatMessage` never reaches either panic (its returned pair always
exists); moreover any truncated text it produces is within the
threshold. -/
theorem c3_truncation_invariant (from_ to_ subject text details : List Char)
    (cfg : TelegramConfig)
    (hcb : countBodyPieces
      (scanPieces from_ to_ subject details cfg.messageTemplate) ≤ 1) :
    (FormatMessagePair
      (FormatMessage from_ to_ subject text details cfg)).isSome = true ∧
    ∀ full tr, FormatMessage from_ to_ subject text details cfg =
        .truncated full tr → tr.length ≤ cfg.messageLengthToSendAsFile :=
  ⟨FormatMessage_no_panic from_ to_ subject text details cfg hcb,
   fun full tr h =>
     (FormatMessage_truncated_inv from_ to_ subject text details cfg
       full tr h).2.2.2.1⟩

set_option maxRecDepth 2000 in
unseal scanPieces in
/-- Witness for C3 at a concrete input: the default template (which
substitutes `{body}` once) with a long body and threshold 12 — the
truncation step completes without a panic. -/
theorem c3_truncation_invariant_witness :
    (FormatMessagePair (FormatMessage "from@test".toList "to@test".toList
      "Test subj".toList (List.replicate 360 'H') []
      { telegramChatIds := [], telegramBotToken := [],
        messageTemplate := defaultMessageTemplate,
        forwardedAttachmentMaxSize := 1024,
        forwardedAttachmentMaxPhotoSize := 1024,
        forwardedAttachmentRespectErrors := false,
        messageLengthToSendAsFile := 12 })).isSome = true :=
  (c3_truncation_invariant "from@test".toList "to@test".toList
    "Test subj".toList (List.replicate 360 'H') []
    { telegramChatIds := [], telegramBotToken := [],
      messageTemplate := defaultMessageTemplate,
      forwardedAttachmentMaxSize := 1024,
      forwardedAttachmentMaxPhotoSize := 1024,
      forwardedAttachmentRespectErrors := false,
      messageLengthToSendAsFile := 12 } (by decide)).1

set_option maxRecDepth 2000 in
/-- C1 counterexample: the claim bounds the delivered text by the fixed
platform limit 4096 even when the send-as-file threshold is configured
above it, but the code only enforces the configured threshold: with
threshold 4097, template `{body}` and a 4097-character body, the
pipeline delivers a 4097-character text. -/
theorem c1_cx_threshold_above_platform_limit :
    FormatEmailPipeline [] [] [] (List.replicate 4097 'a') [] []
        { telegramChatIds := [], telegramBotToken := [],
          messageTemplate := tokBody, forwardedAttachmentMaxSize := 10000000,
          forwardedAttachmentMaxPhotoSize := 10000000,
          forwardedAttachmentRespectErrors := false,
          messageLengthToSendAsFile := 4097 } =
      some (.ok ⟨List.replicate 4097 'a', []⟩) ∧
    4096 < (List.replicate 4097 'a').length := by
  have hfull : renderTemplate tokBody [] [] [] []
      (goTrimSpace (List.replicate 4097 'a')) = List.replicate 4097 'a' := by
    rw [renderTemplate_tokBody, goTrimSpace_replicate 4097 'a' (by decide),
      goTrimSpace_replicate 4097 'a' (by decide)]
  constructor
  · simp only [FormatEmailPipeline, FormatMessage, hfull,
      List.length_replicate]
    rw [if_pos (by omega)]
    simp only [FormatMessagePair, Option.map_some']
    rw [formatEmailFinish_nil]
  · rw [List.length_replicate]
    omega

/-- C1 (amended): the rendered text of every notification the pipeline
produces is bounded by the *configured* send-as-file threshold, provided
that threshold is positive; the fixed 4096 platform limit is not
separately enforced (with the default threshold 4095 the text does stay
within 4096). -/
theorem c1_rendered_text_within_threshold
    (from_ to_ subject text details : List Char)
    (atts : List FormattedAttachment) (cfg : TelegramConfig)
    (fe : FormattedEmail) (hthr : 1 ≤ cfg.messageLengthToSendAsFile)
    (hok : FormatEmailPipeline from_ to_ subject text details atts cfg =
      some (.ok fe)) :
    fe.text.length ≤ cfg.messageLengthToSendAsFile := by
  unfold FormatEmailPipeline at hok
  rcases ho : FormatMessage from_ to_ subject text details cfg with
    full | ⟨full, cut⟩ | ⟨full, tr⟩ | full | ⟨full, tr⟩
  all_goals rw [ho] at hok
  · obtain ⟨-, hle⟩ := FormatMessage_noTruncate_inv _ _ _ _ _ _ _ ho
    simp only [FormatMessagePair, Option.map_some', Option.some.injEq] at hok
    rw [formatEmailFinish_nil] at hok
    cases hok
    exact hle
  · obtain ⟨-, hgt, -, hcut⟩ := FormatMessage_hardCut_inv _ _ _ _ _ _ _ _ ho
    simp only [FormatMessagePair, Option.map_some', Option.some.injEq] at hok
    have hlen : cut.length = cfg.messageLengthToSendAsFile := by
      rw [hcut, List.length_take]
      omega
    have hne : cut ≠ [] := by
      intro hnil
      rw [hnil] at hlen
      simp at hlen
      omega
    have := formatEmailFinish_ok_inv _ _ _ _ _ hne hok
    rw [this]
    simp [hlen]
  · obtain ⟨-, -, -, hle, hmk⟩ :=
      FormatMessage_truncated_inv _ _ _ _ _ _ _ _ ho
    simp only [FormatMessagePair, Option.map_some', Option.some.injEq] at hok
    have := formatEmailFinish_ok_inv _ _ _ _ _ (marker_infix_ne_nil _ hmk) hok
    rw [this]
    exact hle
  · simp [FormatMessagePair] at hok
  · simp [FormatMessagePair] at hok

set_option maxRecDepth 2000 in
unseal goReplace in
/-- Witness for C1 at a concrete input: the default configuration
(threshold 4095) with the `hi` message — the delivered text stays within
the threshold. -/
theorem c1_rendered_text_within_threshold_witness :
    (1 : Nat) ≤ 4095 ∧
    FormatEmailPipeline "from@test".toList "to@test".toList [] "hi".toList [] []
        { telegramChatIds := [], telegramBotToken := [],
          messageTemplate := defaultMessageTemplate,
          forwardedAttachmentMaxSize := 1024,
          forwardedAttachmentMaxPhotoSize := 1024,
          forwardedAttachmentRespectErrors := false,
          messageLengthToSendAsFile := 4095 } =
      some (.ok ⟨"From: from@test\nTo: to@test\nSubject: \n\nhi".toList, []⟩) ∧
    ("From: from@test\nTo: to@test\nSubject: \n\nhi".toList).length ≤ 4095 :=
  ⟨by decide, by decide,
   c1_rendered_text_within_threshold "from@test".toList "to@test".toList []
     "hi".toList [] []
     { telegramChatIds := [], telegramBotToken := [],
       messageTemplate := defaultMessageTemplate,
       forwardedAttachmentMaxSize := 1024,
       forwardedAttachmentMaxPhotoSize := 1024,
       forwardedAttachmentRespectErrors := false,
       messageLengthToSendAsFile := 4095 }
     ⟨"From: from@test\nTo: to@test\nSubject: \n\nhi".toList, []⟩
     (by decide) (by decide)⟩


set_option maxRecDepth 2000 in
unseal goReplace in
/-- C2 counterexample: the claim says the truncated text ends with the
truncation marker, but the marker only ends the *body*; template content
rendered after `{body}` (here the literal `.Z`, in general the
attachments summary) follows it.  With template `{body}.Z`, a
30-character body and threshold 20, the delivered text ends in `.Z`. -/
theorem c2_cx_marker_not_suffix :
    FormatEmailPipeline [] [] [] (List.replicate 30 'b') [] []
        { telegramChatIds := [], telegramBotToken := [],
          messageTemplate := tokBody ++ ".Z".toList,
          forwardedAttachmentMaxSize := 1024,
          forwardedAttachmentMaxPhotoSize := 1024,
          forwardedAttachmentRespectErrors := false,
          messageLengthToSendAsFile := 20 } =
      some (.ok ⟨List.replicate 4 'b' ++ BodyTruncated ++ ".Z".toList,
        [fullMessageAttachment (List.replicate 30 'b' ++ ".Z".toList)]⟩) ∧
    ¬(markerCore <:+
      List.replicate 4 'b' ++ BodyTruncated ++ ".Z".toList) ∧
    20 < (List.replicate 30 'b' ++ ".Z".toList).length := by
  refine ⟨by decide, by decide, by decide⟩

/-- C2 (amended): for every envelope whose fully rendered text exceeds
the (positive) send-as-file threshold in characters and for which the
pipeline succeeds, a fallback document containing the untouched full
text is attached first, and the returned text is strictly shorter than
the full text and *contains* the truncation marker (it ends with it only
when nothing is rendered after the body) — except when the empty-body
variant already meets or exceeds the threshold, in which case the
returned text is exactly the first threshold characters of the full
text. -/
theorem c2_truncation_output (from_ to_ subject text details : List Char)
    (atts : List FormattedAttachment) (cfg : TelegramConfig)
    (fe : FormattedEmail) (hthr : 1 ≤ cfg.messageLengthToSendAsFile)
    (hfull : cfg.messageLengthToSendAsFile <
      (renderTemplate cfg.messageTemplate from_ to_ subject details
        (goTrimSpace text)).length)
    (hok : FormatEmailPipeline from_ to_ subject text details atts cfg =
      some (.ok fe)) :
    fe.attachments.head? = some (fullMessageAttachment
      (renderTemplate cfg.messageTemplate from_ to_ subject details
        (goTrimSpace text))) ∧
    fe.text.length <
      (renderTemplate cfg.messageTemplate from_ to_ subject details
        (goTrimSpace text)).length ∧
    (cfg.messageLengthToSendAsFile ≤
        (renderTemplate cfg.messageTemplate from_ to_ subject details
          (goTrimSpace ('.' :: BodyTruncated))).length →
      fe.text = (renderTemplate cfg.messageTemplate from_ to_ subject details
        (goTrimSpace text)).take cfg.messageLengthToSendAsFile) ∧
    ((renderTemplate cfg.messageTemplate from_ to_ subject details
        (goTrimSpace ('.' :: BodyTruncated))).length <
        cfg.messageLengthToSendAsFile →
      markerCore <:+: fe.text) := by
  unfold FormatEmailPipeline at hok
  rcases ho : FormatMessage from_ to_ subject text details cfg with
    full | ⟨full, cut⟩ | ⟨full, tr⟩ | full | ⟨full, tr⟩
  all_goals rw [ho] at hok
  · obtain ⟨hfe, hle⟩ := FormatMessage_noTruncate_inv _ _ _ _ _ _ _ ho
    rw [hfe] at hle
    omega
  · obtain ⟨hfe, hgt, hem, hcut⟩ := FormatMessage_hardCut_inv _ _ _ _ _ _ _ _ ho
    simp only [FormatMessagePair, Option.map_some', Option.some.injEq] at hok
    have hlen : cut.length = cfg.messageLengthToSendAsFile := by
      rw [hcut, List.length_take]
      omega
    have hne : cut ≠ [] := by
      intro hnil
      rw [hnil] at hlen
      simp at hlen
      omega
    have hfeq := formatEmailFinish_ok_inv _ _ _ _ _ hne hok
    rw [hfeq, hfe] at *
    refine ⟨by simp, by simpa [hlen] using hgt, fun _ => hcut,
      fun hlt => ?_⟩
    exact absurd hlt (by omega)
  · obtain ⟨hfe, hgt, hem, hle, hmk⟩ :=
      FormatMessage_truncated_inv _ _ _ _ _ _ _ _ ho
    simp only [FormatMessagePair, Option.map_some', Option.some.injEq] at hok
    have hfeq := formatEmailFinish_ok_inv _ _ _ _ _
      (marker_infix_ne_nil _ hmk) hok
    rw [hfeq, hfe]
    refine ⟨by simp, by simp only []; rw [← hfe]; omega, fun hge => ?_,
      fun _ => hmk⟩
    exact absurd hge (by omega)
  · simp [FormatMessagePair] at hok
  · simp [FormatMessagePair] at hok

set_option maxRecDepth 2000 in
unseal goReplace in
/-- Witness for C2 at a concrete input: template `{body}`, a 30
character body and threshold 20 — the fallback document is attached
first, the delivered text is shorter than the full text and contains
the truncation marker. -/
theorem c2_truncation_output_witness :
    (⟨List.replicate 6 'a' ++ BodyTruncated,
        [fullMessageAttachment (List.replicate 30 'a')]⟩ :
          FormattedEmail).attachments.head? =
      some (fullMessageAttachment
        (renderTemplate tokBody [] [] [] []
          (goTrimSpace (List.replicate 30 'a')))) ∧
    (⟨List.replicate 6 'a' ++ BodyTruncated,
        [fullMessageAttachment (List.replicate 30 'a')]⟩ :
          FormattedEmail).text.length <
      (renderTemplate tokBody [] [] [] []
        (goTrimSpace (List.replicate 30 'a'))).length ∧
    markerCore <:+:
      (⟨List.replicate 6 'a' ++ BodyTruncated,
        [fullMessageAttachment (List.replicate 30 'a')]⟩ :
          FormattedEmail).text := by
  have h := c2_truncation_output [] [] [] (List.replicate 30 'a') [] []
    { telegramChatIds := [], telegramBotToken := [],
      messageTemplate := tokBody, forwardedAttachmentMaxSize := 1024,
      forwardedAttachmentMaxPhotoSize := 1024,
      forwardedAttachmentRespectErrors := false,
      messageLengthToSendAsFile := 20 }
    ⟨List.replicate 6 'a' ++ BodyTruncated,
      [fullMessageAttachment (List.replicate 30 'a')]⟩
    (by decide) (by decide) (by decide)
  exact ⟨h.1, h.2.1, h.2.2.2 (by decide)⟩

end SmtpToTelegram
